import Mathlib

/-!
Verification development for the order-fulfillment allocation engine of a
local-delivery marketplace backend.  The definitions below are a shallow
embedding of the TypeScript source (store discovery, availability queries,
the greedy cart-to-store allocation loop, and the multi-table order
persistence sequence), with JavaScript numbers modelled as rationals,
fallible datastore calls modelled with explicit result values, and the
datastore itself modelled as lists of rows.
-/

set_option autoImplicit false

/-! ### JS truthiness for optional strings -/

/-- Truthiness of a JS value that is either a string or null/undefined:
`none` and `some ""` are falsy, any non-empty string is truthy. -/
def strTruthy : Option String → Bool
  | none => false
  | some s => !s.isEmpty

/-! ### Cart items and catalog rows -/

/-- A cart line item as supplied to `createOrder` (interface `OrderItem`):
`product_id`/`id` are the master product id (either may be absent),
`name`, `price`, `quantity`, and optional `image`/`unit` snapshots. -/
structure OrderItem where
  product_id : Option String
  id : Option String
  name : String
  price : ℚ
  quantity : ℚ
  image : Option String
  unit : Option String
deriving DecidableEq, Inhabited, Repr

/-- `it.product_id || it.id` (JS `||` falls through on falsy values). -/
def itemMid (it : OrderItem) : Option String :=
  if strTruthy it.product_id then it.product_id else it.id

/-- A row of the `products` table (store-scoped inventory entry):
`id` is the store-scoped product id, `store_id` the owning store,
`master_product_id` the catalog product, `is_active` the activity flag. -/
structure ProductsRow where
  id : String
  store_id : String
  master_product_id : String
  is_active : Bool
deriving DecidableEq, Inhabited, Repr

/-! ### JS `Map` modelled as an association list with insertion order -/

/-- JS `Map.set`: update the value of an existing key in place, or append a
new entry at the end. -/
def amSet {α : Type} (m : List (String × α)) (k : String) (v : α) : List (String × α) :=
  if m.any (fun p => p.1 == k) then m.map (fun p => if p.1 == k then (k, v) else p)
  else m ++ [(k, v)]

/-- JS `Map.get`: the value of the first (and only) entry with the key. -/
def amGet {α : Type} (m : List (String × α)) (k : String) : Option α :=
  (m.find? (fun p => p.1 == k)).map Prod.snd

/-- First-occurrence deduplication, as done by `[...new Set(list)]`. -/
def dedupFirst (l : List String) : List String :=
  l.foldl (fun acc x => if acc.contains x then acc else acc ++ [x]) []

/-! ### Geospatial store locator (`getNearbyStoreIds`) -/

/-- The supabase RPC response shape: a nullable data payload plus a nullable
error. -/
structure RpcResponse where
  data : Option (List String)
  error : Option String
deriving DecidableEq, Repr

/-- Outcome of the `get_nearby_store_ids` RPC round-trip: either a response
object or a thrown transport exception. -/
inductive RpcOutcome where
  | resp (r : RpcResponse)
  | thrown
deriving DecidableEq, Repr

/-- `getNearbyStoreIds`: returns the id list on success, and `[]` when the
RPC reports an error, yields a null or empty list, or throws (the whole
body is wrapped in try/catch returning `[]`).  Total: never throws. -/
def getNearbyStoreIdsModel : RpcOutcome → List String
  | RpcOutcome.thrown => []
  | RpcOutcome.resp r =>
    if r.error.isSome then []
    else
      match r.data with
      | none => []
      | some storeIds => if storeIds.length = 0 then [] else storeIds

/-! ### Chunking of `.in()` filter lists -/

/-- `IN_FILTER_CHUNK_SIZE`: chunk size used to keep PostgREST `.in()` URL
filters under transport limits. -/
def IN_FILTER_CHUNK_SIZE : ℕ := 100

/-- The source's `chunk` helper: split a list into consecutive pieces of at
most `size` elements.  (The source loops `i += size`; it is only ever called
with the positive constant `IN_FILTER_CHUNK_SIZE`, and this model returns
`[]` for `size = 0`, where the JS loop would not terminate.) -/
def chunkList {α : Type} (arr : List α) (size : ℕ) : List (List α) :=
  if hc : arr.isEmpty ∨ size = 0 then []
  else
    have hlen : (arr.drop size).length < arr.length := by
      simp only [not_or, List.isEmpty_iff] at hc
      have h1 : arr.length ≠ 0 := fun hl => hc.1 (List.eq_nil_of_length_eq_zero hl)
      simp only [List.length_drop]
      omega
    arr.take size :: chunkList (arr.drop size) size
termination_by arr.length

/-- The inventory-availability query issued by `createOrder` (one
`.in('store_id', storeIds).in('master_product_id', masterProductIds)`
select): a single query carrying the full filter lists — not chunked. -/
def availabilityQueryBatches (storeIds masterIds : List String) :
    List (List String × List String) :=
  [(storeIds, masterIds)]

/-- Evaluation of the availability query against the `products` table:
active rows whose store is among the candidates and whose master product is
among the cart's master ids. -/
def availabilityQuery (products : List ProductsRow) (storeIds mids : List String) :
    List ProductsRow :=
  products.filter (fun r => storeIds.contains r.store_id && mids.contains r.master_product_id && r.is_active)

/-! ### The greedy allocation loop

The source builds `byMaster : Map master_product_id → list of
(store_id, product_id)` from the availability query result and then runs a
greedy loop: repeatedly pick the store supplying the most still-unassigned
items and assign all of those items to it.  Assigned cart items are tracked
as a JS `Set` of cart indices, modelled as a duplicate-free list of indices;
the per-store assignment lists store cart indices, the JS code pushing the
item object `items[i]` at the exact moment index `i` is marked assigned. -/

/-- `byMaster.get(mid)`: `none` when no availability row carries the master
id (JS `undefined`), otherwise the rows with that master id in order. -/
def byMasterGet (rows : List ProductsRow) (mid : String) : Option (List ProductsRow) :=
  let l := rows.filter (fun r => r.master_product_id == mid)
  if l.isEmpty then none else some l

/-- `const options = mid ? byMaster.get(mid) : []` followed by
`options.some(...)`: when the item has a truthy master id that is absent
from `byMaster`, the JS code dereferences `undefined` and throws a
`TypeError`, modelled as `Except.error ()`. -/
def itemOptions (rows : List ProductsRow) (it : OrderItem) : Except Unit (List ProductsRow) :=
  let mid := itemMid it
  if strTruthy mid then
    match byMasterGet rows (mid.getD "") with
    | none => Except.error ()
    | some l => Except.ok l
  else Except.ok []

/-- Whether an item's availability options include the given store, in a run
where `itemOptions` does not throw. -/
def itemCarried (rows : List ProductsRow) (it : OrderItem) (s : String) : Bool :=
  match itemOptions rows it with
  | Except.error _ => false
  | Except.ok options => options.any (fun o => o.store_id == s)

/-- One store's count of currently-unassigned suppliable items: the inner
`for (const it of items)` loop with `const idx = items.indexOf(it)` and the
`assigned.has(idx)` skip.  The recursion walks the suffix `sub` of `items`
while `indexOf` always searches the full list, as in the source. -/
def countFor (rows : List ProductsRow) (allItems : List OrderItem) (assigned : List ℕ)
    (s : String) : List OrderItem → Except Unit ℕ
  | [] => Except.ok 0
  | it :: rest =>
    if assigned.contains (allItems.indexOf it) then countFor rows allItems assigned s rest
    else
      match itemOptions rows it with
      | Except.error e => Except.error e
      | Except.ok options =>
        match countFor rows allItems assigned s rest with
        | Except.error e => Except.error e
        | Except.ok c => Except.ok (if options.any (fun o => o.store_id == s) then c + 1 else c)

/-- The `for (const storeId of storeIds)` scan selecting the store with the
strictly highest count (first maximum wins on ties). -/
def findBest (rows : List ProductsRow) (items : List OrderItem) (assigned : List ℕ) :
    List String → Option String × ℕ → Except Unit (Option String × ℕ)
  | [], best => Except.ok best
  | s :: rest, (bs, bc) =>
    match countFor rows items assigned s items with
    | Except.error e => Except.error e
    | Except.ok c =>
      findBest rows items assigned rest (if bc < c then (some s, c) else (bs, bc))

/-- The chunk-building loop `for (let i = 0; i < items.length; i++)`: collect
every still-unassigned index whose item the selected store carries, adding
each collected index to `assigned` as it goes. -/
def buildChunk (rows : List ProductsRow) (items : List OrderItem) (best : String) :
    List ℕ → List ℕ → Except Unit (List ℕ)
  | [], _ => Except.ok []
  | i :: rest, assigned =>
    if assigned.contains i then buildChunk rows items best rest assigned
    else
      match itemOptions rows (items.getD i default) with
      | Except.error e => Except.error e
      | Except.ok options =>
        if options.any (fun o => o.store_id == best) then
          match buildChunk rows items best rest (assigned ++ [i]) with
          | Except.error e => Except.error e
          | Except.ok l => Except.ok (i :: l)
        else buildChunk rows items best rest assigned

/-- The `while (assigned.size < items.length)` loop.  The source breaks on
`if (!bestStore || bestCount === 0)`: a falsy best store — `null` or the
empty string — or a zero count stops the loop.  Each productive round
assigns at least one new index, so `items.length + 1` units of fuel are
enough for the model to agree with the unbounded JS loop on every input on
which the JS loop terminates. -/
def allocLoop (rows : List ProductsRow) (items : List OrderItem) (storeIds : List String) :
    ℕ → List ℕ → List (String × List ℕ) → Except Unit (List (String × List ℕ) × List ℕ)
  | 0, assigned, stm => Except.ok (stm, assigned)
  | fuel + 1, assigned, stm =>
    if assigned.length < items.length then
      match findBest rows items assigned storeIds (none, 0) with
      | Except.error e => Except.error e
      | Except.ok (bestStore, bestCount) =>
        match bestStore with
        | none => Except.ok (stm, assigned)
        | some best =>
          if best.isEmpty then Except.ok (stm, assigned)
          else if bestCount = 0 then Except.ok (stm, assigned)
          else
            match buildChunk rows items best (List.range items.length) assigned with
            | Except.error e => Except.error e
            | Except.ok chunkIdxs =>
              allocLoop rows items storeIds fuel (assigned ++ chunkIdxs)
                (amSet stm best (((amGet stm best).getD []) ++ chunkIdxs))
    else Except.ok (stm, assigned)

/-- The allocation engine (source lines building `storeToItems` and
`unassigned`): returns the store→assigned-cart-indices map in insertion
order together with the list of unassigned cart indices, or a `TypeError`
when the loop dereferences a missing `byMaster` entry. -/
def allocate (storeIds : List String) (items : List OrderItem) (rows : List ProductsRow) :
    Except Unit (List (String × List ℕ) × List ℕ) :=
  match allocLoop rows items storeIds (items.length + 1) [] [] with
  | Except.error e => Except.error e
  | Except.ok (stm, assigned) =>
    Except.ok (stm, (List.range items.length).filter (fun i => !assigned.contains i))

/-! ### Order persistence (`createOrder`) -/

/-- The shipping address supplied to `createOrder`, with optional saved
coordinates. -/
structure ShippingAddress where
  address : String
  city : String
  state : String
  pincode : String
  latitude : Option ℚ
  longitude : Option ℚ
deriving DecidableEq, Inhabited, Repr

/-- The `CreateOrderData` request payload (fields the engine reads). -/
structure CreateOrderData where
  user_id : Option String
  customer_name : String
  payment_status : String
  payment_method : String
  order_total : ℚ
  subtotal : ℚ
  delivery_fee : ℚ
  items : List OrderItem
  shipping_address : ShippingAddress
deriving DecidableEq, Inhabited, Repr

/-- Rows of the four order tables. -/
structure CustomerOrderRow where
  id : ℕ
  customer_id : String
  order_code : String
  status : String
  payment_status : String
  payment_method : String
  subtotal_amount : ℚ
  delivery_fee : ℚ
  discount_amount : ℚ
  total_amount : ℚ
  delivery_address : String
  delivery_latitude : ℚ
  delivery_longitude : ℚ
deriving DecidableEq, Inhabited, Repr

structure StoreOrderRow where
  id : ℕ
  customer_order_id : ℕ
  store_id : String
  subtotal_amount : ℚ
  delivery_fee : ℚ
  status : String
deriving DecidableEq, Inhabited, Repr

structure OrderItemRow where
  store_order_id : ℕ
  product_id : String
  product_name : String
  unit : Option String
  image_url : Option String
  unit_price : ℚ
  quantity : ℚ
deriving DecidableEq, Inhabited, Repr

structure StatusHistoryRow where
  customer_order_id : ℕ
  status : String
  notes : String
deriving DecidableEq, Inhabited, Repr

/-- The datastore state touched by order placement: the four order tables,
as append-only lists of rows (`createOrder` performs no deletes). -/
structure DBState where
  customer_orders : List CustomerOrderRow
  store_orders : List StoreOrderRow
  order_items : List OrderItemRow
  order_status_history : List StatusHistoryRow
deriving DecidableEq, Inhabited, Repr

/-- Fault injection for the datastore writes and reads of the persistence
sequence: `true` means that call reports an error. -/
structure Faults where
  customerOrderInsert : Bool
  storeOrderInsert : ℕ → Bool
  productsSelect : ℕ → Bool
  orderItemsInsert : ℕ → Bool
  historyInsert : Bool

/-- The typed failures `createOrder` can surface (each `throw` site of the
source gets one constructor). -/
inductive OrderErr where
  | noUser
  | addressResolution
  | sequenceFailed (msg : String)
  | noStores
  | noValidProducts
  | allocTypeError
  | itemsUnavailable (names : List String)
  | persistence (msg : String)
  | verifyAvailability
  | productNotAvailable (name : String)
deriving DecidableEq, Repr

/-- The `Order` value returned to the caller on success (fields the claims
inspect). -/
structure OrderResult where
  id : ℕ
  order_status : String
  order_total : ℚ
  subtotal : ℚ
  delivery_fee : ℚ
  items_count : ℕ
  order_number : String
deriving DecidableEq, Repr

/-- Join the non-empty address components with a comma, as
`[address, city, state, pincode].filter(Boolean).join(', ')`. -/
def fullAddressOf (sa : ShippingAddress) : String :=
  String.intercalate ", "
    (([sa.address, sa.city, sa.state, sa.pincode]).filter (fun s => !s.isEmpty))

/-- Use the supplied coordinates when both are present, otherwise fall back
to the external geocoder's result (`none` = geocoding yielded nothing). -/
def resolveCoords (sa : ShippingAddress) (geo : Option (ℚ × ℚ)) : Option (ℚ × ℚ) :=
  match sa.latitude, sa.longitude with
  | some a, some b => some (a, b)
  | _, _ => geo

/-- `(list).map(it => it.product_id || it.id).filter(id => id != null && id !== '')`:
the truthy master product ids of a list of cart items. -/
def truthyMids (l : List OrderItem) : List String :=
  l.filterMap (fun it =>
    let m := itemMid it
    if strTruthy m then m else none)

/-- The deduplicated list of truthy master product ids of the cart
(`[...new Set(...)]` over `truthyMids`). -/
def masterIdsOf (items : List OrderItem) : List String :=
  dedupFirst (truthyMids items)

/-- Map the display payment method onto the DB enum: anything containing
"cash" (case-insensitively) or equal to "cod" becomes cash-on-delivery,
everything else upi. -/
def isCashMethod (pm : String) : Bool :=
  1 < ((pm.toLower).splitOn "cash").length || pm == "cod"

/-- Build the `order_items` insert payload for one sub-order: resolve each
item's master id through the store-scoped `masterToProduct` map, throwing
`ProductNotAvailableError` (naming the item) when the lookup yields nothing
falsy-or-missing. -/
def buildPayload (m2p : List (String × String)) (soId : ℕ) :
    List OrderItem → Except OrderErr (List OrderItemRow)
  | [] => Except.ok []
  | it :: rest =>
    let mid := itemMid it
    let pid := if strTruthy mid then amGet m2p (mid.getD "") else none
    match pid with
    | none => Except.error (OrderErr.productNotAvailable it.name)
    | some p =>
      if p.isEmpty then Except.error (OrderErr.productNotAvailable it.name)
      else
        match buildPayload m2p soId rest with
        | Except.error e => Except.error e
        | Except.ok l =>
          Except.ok ({ store_order_id := soId, product_id := p, product_name := it.name,
                       unit := (if strTruthy it.unit then it.unit else none),
                       image_url := (if strTruthy it.image then it.image else none),
                       unit_price := it.price, quantity := it.quantity } :: l)

/-- The per-store persistence loop (`for (let i = 0; i < itemChunks.length; i++)`):
insert one `store_orders` row per non-skipped chunk, resolve the chunk's
store-scoped product ids, then insert its `order_items` rows.  On any
reported error the loop throws, keeping every row already written — the
source performs no compensating deletes here. -/
def persistChunks (products : List ProductsRow) (faults : Faults) (coId : ℕ) (fee : ℚ)
    (nChunks : ℕ) : List (ℕ × String × List OrderItem) → DBState → DBState × Option OrderErr
  | [], db => (db, none)
  | (i, sid, chunkItems) :: rest, db =>
    if chunkItems.isEmpty || sid.isEmpty then
      persistChunks products faults coId fee nChunks rest db
    else
      if faults.storeOrderInsert i then
        (db, some (OrderErr.persistence "Failed to create store order"))
      else
        let soId := db.store_orders.length
        let chunkSubtotal := (chunkItems.map (fun it => it.price * it.quantity)).sum
        let chunkFee := if 1 < nChunks then fee / (nChunks : ℚ) else fee
        let db1 := { db with store_orders := db.store_orders ++
          [{ id := soId, customer_order_id := coId, store_id := sid,
             subtotal_amount := chunkSubtotal, delivery_fee := chunkFee,
             status := "pending_at_store" }] }
        let chunkMids := truthyMids chunkItems
        if chunkMids.isEmpty then persistChunks products faults coId fee nChunks rest db1
        else
          if faults.productsSelect i then (db1, some OrderErr.verifyAvailability)
          else
            let prows := products.filter (fun r =>
              r.store_id == sid && chunkMids.contains r.master_product_id && r.is_active)
            let masterToProduct := prows.foldl (fun m p => amSet m p.master_product_id p.id) []
            match buildPayload masterToProduct soId chunkItems with
            | Except.error e => (db1, some e)
            | Except.ok payload =>
              if faults.orderItemsInsert i then
                (db1, some (OrderErr.persistence "Failed to create order items"))
              else
                persistChunks products faults coId fee nChunks rest
                  { db1 with order_items := db1.order_items ++ payload }

/-- The environment of one `createOrder` invocation: the geocoder's answer,
the order-number RPC outcome, the nearby-stores RPC outcome, the contents
of the `products` table, and the write-fault schedule. -/
structure OrderEnv where
  geocode : Option (ℚ × ℚ)
  orderNumber : Except String String
  nearbyResp : RpcOutcome
  products : List ProductsRow
  faults : Faults

/-- The allocation-stage outcome of `createOrder`: everything computed
before the first datastore write. -/
structure OrderPlan where
  orderCode : String
  lat : ℚ
  lng : ℚ
  fullAddress : String
  storeIds : List String
  stm : List (String × List ℕ)
deriving Repr

/-- Steps 1–5 of `createOrder` (validation, coordinates, order code,
candidate stores, availability, allocation): a pure stage performing no
datastore write; every failure here leaves the datastore untouched. -/
def createOrderPlan (env : OrderEnv) (od : CreateOrderData) : Except OrderErr OrderPlan :=
  if !strTruthy od.user_id then Except.error OrderErr.noUser
  else
    match resolveCoords od.shipping_address env.geocode with
    | none => Except.error OrderErr.addressResolution
    | some (glat, glng) =>
      match env.orderNumber with
      | Except.error m => Except.error (OrderErr.sequenceFailed m)
      | Except.ok orderCode =>
        let storeIds := getNearbyStoreIdsModel env.nearbyResp
        if storeIds.isEmpty then Except.error OrderErr.noStores
        else
          let mids := masterIdsOf od.items
          if mids.isEmpty then Except.error OrderErr.noValidProducts
          else
            let productRows := availabilityQuery env.products storeIds mids
            match allocate storeIds od.items productRows with
            | Except.error _ => Except.error OrderErr.allocTypeError
            | Except.ok (stm, unassignedIdx) =>
              if !unassignedIdx.isEmpty then
                Except.error (OrderErr.itemsUnavailable
                  (unassignedIdx.map (fun i => (od.items.getD i default).name)))
              else
                Except.ok { orderCode := orderCode, lat := glat, lng := glng,
                            fullAddress := fullAddressOf od.shipping_address,
                            storeIds := storeIds, stm := stm }

/-- The `customer_orders` row inserted by step 6 for a given plan. -/
def customerRowOf (od : CreateOrderData) (plan : OrderPlan) (coId : ℕ) : CustomerOrderRow :=
  { id := coId, customer_id := od.user_id.getD "", order_code := plan.orderCode,
    status := "pending_at_store", payment_status := od.payment_status,
    payment_method := (if isCashMethod od.payment_method then "cash_on_delivery" else "upi"),
    subtotal_amount := od.subtotal, delivery_fee := od.delivery_fee,
    discount_amount := 0, total_amount := od.order_total,
    delivery_address := plan.fullAddress, delivery_latitude := plan.lat,
    delivery_longitude := plan.lng }

/-- Steps 6–8 of `createOrder`: insert the `customer_orders` row, run the
per-store loop, then fire the `order_status_history` insert — whose error
the source ignores (no check, no failure, no rollback). -/
def runPersist (env : OrderEnv) (od : CreateOrderData) (plan : OrderPlan) (db : DBState) :
    DBState × Except OrderErr OrderResult :=
  let storeIdsToUse := plan.stm.map Prod.fst
  let itemChunks := storeIdsToUse.map (fun sid =>
    (((amGet plan.stm sid).getD []).map (fun i => od.items.getD i default)))
  if env.faults.customerOrderInsert then
    (db, Except.error (OrderErr.persistence "Failed to create order"))
  else
    let coId := db.customer_orders.length
    let db1 := { db with customer_orders := db.customer_orders ++
      [customerRowOf od plan coId] }
    match persistChunks env.products env.faults coId od.delivery_fee itemChunks.length
        ((storeIdsToUse.zip itemChunks).enum) db1 with
    | (db2, some e) => (db2, Except.error e)
    | (db2, none) =>
      let db3 := if env.faults.historyInsert then db2
                 else { db2 with order_status_history := db2.order_status_history ++
                   [{ customer_order_id := coId, status := "pending_at_store",
                      notes := "Order placed" }] }
      (db3, Except.ok { id := coId, order_status := "placed", order_total := od.order_total,
                        subtotal := od.subtotal, delivery_fee := od.delivery_fee,
                        items_count := od.items.length, order_number := plan.orderCode })

/-- The complete `createOrder` operation: the pure planning stage followed
by the persistence sequence; returns the datastore state it leaves behind
together with the result or typed failure. -/
def createOrderModel (env : OrderEnv) (od : CreateOrderData) (db : DBState) :
    DBState × Except OrderErr OrderResult :=
  match createOrderPlan env od with
  | Except.error e => (db, Except.error e)
  | Except.ok plan => runPersist env od plan db

/-! ### Store-owner signup (`signupComplete`) -/

/-- A row of `app_users` as inserted by the signup flow. -/
structure AppUserRow where
  id : ℕ
  name : String
  phone : String
  email : Option String
  role : String
  is_activated : Bool
deriving DecidableEq, Inhabited, Repr

/-- A row of `stores` as inserted by the signup flow. -/
structure StoreRow where
  owner_id : ℕ
  name : String
  phone : String
  address : String
  latitude : ℚ
  longitude : ℚ
  is_active : Bool
deriving DecidableEq, Inhabited, Repr

/-- The datastore state touched by signup, with the id the datastore will
assign to the next inserted user. -/
structure SignupState where
  app_users : List AppUserRow
  stores : List StoreRow
  nextId : ℕ
deriving DecidableEq, Repr

/-- Fault injection for the two signup inserts. -/
structure SignupEnv where
  userInsertFails : Bool
  storeInsertFails : Bool

/-- The signup request body (fields the handler reads; JS absent/null
fields modelled as `none`). -/
structure SignupReq where
  phone : Option String
  ownerName : Option String
  storeName : Option String
  storeAddress : Option String
  email : Option String
  latitude : Option ℚ
  longitude : Option ℚ
deriving DecidableEq, Repr

/-- The handler's HTTP outcome. -/
inductive SignupResp where
  | badRequest
  | serverError (msg : String)
  | success
deriving DecidableEq, Repr

/-- `signupComplete`: validate, insert the `app_users` row, insert the
`stores` row, and on a stores-insert failure delete the just-created
`app_users` row before returning the error. -/
def signupCompleteModel (env : SignupEnv) (req : SignupReq) (st : SignupState) :
    SignupState × SignupResp :=
  if !strTruthy req.phone || !strTruthy req.ownerName || !strTruthy req.storeName then
    (st, SignupResp.badRequest)
  else
    if env.userInsertFails then (st, SignupResp.serverError "Failed to create account")
    else
      let newId := st.nextId
      let newUser : AppUserRow :=
        { id := newId, name := (req.ownerName.getD "").trim, phone := req.phone.getD "",
          email := (if strTruthy req.email then some ((req.email.getD "").trim) else none),
          role := "store_owner", is_activated := true }
      let st1 : SignupState :=
        { st with app_users := st.app_users ++ [newUser], nextId := st.nextId + 1 }
      if env.storeInsertFails then
        ({ st1 with app_users := st1.app_users.filter (fun u => u.id ≠ newId) },
         SignupResp.serverError "Failed to create store")
      else
        ({ st1 with stores := st1.stores ++
           [{ owner_id := newId, name := (req.storeName.getD "").trim,
              phone := req.phone.getD "",
              address := (if strTruthy req.storeAddress then (req.storeAddress.getD "").trim else ""),
              latitude := req.latitude.getD 0, longitude := req.longitude.getD 0,
              is_active := false }] },
         SignupResp.success)

/-! ### Concrete fixtures used by the claim theorems and their witnesses -/

/-- Fault-free write schedule. -/
def faultsNone : Faults :=
  { customerOrderInsert := false, storeOrderInsert := fun _ => false,
    productsSelect := fun _ => false, orderItemsInsert := fun _ => false,
    historyInsert := false }

/-- The empty datastore. -/
def dbEmpty : DBState :=
  { customer_orders := [], store_orders := [], order_items := [],
    order_status_history := [] }

/-- A cart item carrying only a master product id, name, price and quantity. -/
def mkItem (pid nm : String) (price qty : ℚ) : OrderItem :=
  { product_id := some pid, id := none, name := nm, price := price, quantity := qty,
    image := none, unit := none }

def itemA : OrderItem := mkItem "A" "Apple" 10 1

def itemB : OrderItem := mkItem "B" "Bread" 5 2

def itemC : OrderItem := mkItem "C" "Cheese" 3 1

/-- An active `products` row. -/
def mkRow (pid sid master : String) : ProductsRow :=
  { id := pid, store_id := sid, master_product_id := master, is_active := true }

/-- Availability of claim C5's scenario: S1 carries A and B; S2 carries B and C. -/
def rowsS1S2 : List ProductsRow :=
  [mkRow "p1" "S1" "A", mkRow "p2" "S1" "B", mkRow "p3" "S2" "B", mkRow "p4" "S2" "C"]

def addrFix : ShippingAddress :=
  { address := "1 Park Street", city := "Kolkata", state := "WB", pincode := "700001",
    latitude := some 10, longitude := some 20 }

def mkOrderData (its : List OrderItem) (sub fee tot : ℚ) : CreateOrderData :=
  { user_id := some "u1", customer_name := "Customer", payment_status := "pending",
    payment_method := "cod", order_total := tot, subtotal := sub, delivery_fee := fee,
    items := its, shipping_address := addrFix }

def mkEnv (sids : List String) (prods : List ProductsRow) (f : Faults) : OrderEnv :=
  { geocode := none, orderNumber := Except.ok "NN202601010001",
    nearbyResp := RpcOutcome.resp { data := some sids, error := none },
    products := prods, faults := f }

/-- C1 fixture: S1 carries A, S2 carries B; the `store_orders` insert of the
second sub-order fails. -/
def envRollback : OrderEnv :=
  mkEnv ["S1", "S2"] [mkRow "p1" "S1" "A", mkRow "p2" "S2" "B"]
    { faultsNone with storeOrderInsert := fun i => i = 1 }

def odAB : CreateOrderData := mkOrderData [itemA, itemB] 20 5 25

/-- C2 fixture: the only candidate store carries only product B while the
cart asks for A. -/
def envUncarried : OrderEnv := mkEnv ["S1"] [mkRow "p9" "S1" "B"] faultsNone

def odA : CreateOrderData := mkOrderData [itemA] 10 5 15

/-- A fault-free single-store environment (S1 carries A). -/
def envSingle : OrderEnv := mkEnv ["S1"] [mkRow "p1" "S1" "A"] faultsNone

/-- C6 counterexample order: the caller-supplied subtotal (999) differs from
the cart's price×quantity sum (10). -/
def odMismatch : CreateOrderData := mkOrderData [itemA] 999 5 1004

def odMatch : CreateOrderData := mkOrderData [itemA] 10 5 15

/-- C7 fixture: two stores each carrying one distinct cart item, fee 7. -/
def envTwoStores : OrderEnv :=
  mkEnv ["S1", "S2"] [mkRow "p1" "S1" "A", mkRow "p2" "S2" "B"] faultsNone

def odABfee : CreateOrderData := mkOrderData [itemA, itemB] 20 7 27

/-- C8 fixture: the nearby-stores RPC answers with an empty id list. -/
def envNoStores : OrderEnv := mkEnv [] [] faultsNone

def reqSignup : SignupReq :=
  { phone := some "123", ownerName := some "Owner", storeName := some "Shop",
    storeAddress := none, email := none, latitude := none, longitude := none }

def oldUserRow : AppUserRow :=
  { id := 0, name := "Old", phone := "9", email := none, role := "customer",
    is_activated := true }

def stSignup : SignupState :=
  { app_users := [oldUserRow], stores := [], nextId := 1 }

def envSignupStoreFail : SignupEnv := { userInsertFails := false, storeInsertFails := true }

/-- The order result returned for `envSingle`/`odMatch`. -/
def resW6 : OrderResult :=
  { id := 0, order_status := "placed", order_total := 15, subtotal := 10,
    delivery_fee := 5, items_count := 1, order_number := "NN202601010001" }

/-- The order result returned for `envSingle`/`odMismatch`. -/
def resMismatch : OrderResult :=
  { id := 0, order_status := "placed", order_total := 1004, subtotal := 999,
    delivery_fee := 5, items_count := 1, order_number := "NN202601010001" }

/-- The order result returned for `envTwoStores`/`odABfee`. -/
def resW7 : OrderResult :=
  { id := 0, order_status := "placed", order_total := 27, subtotal := 20,
    delivery_fee := 7, items_count := 2, order_number := "NN202601010001" }

/-- Loop invariant of the greedy allocation: `assigned` is a duplicate-free
list of valid cart indices; the per-store index lists partition `assigned`
up to order; per-store lists are non-empty, keyed by distinct candidate
stores, and contain only valid indices of items the store carries; and
structurally equal cart items are always assigned or unassigned together. -/
structure AllocInv (rows : List ProductsRow) (items : List OrderItem) (storeIds : List String)
    (assigned : List ℕ) (stm : List (String × List ℕ)) : Prop where
  nodup : assigned.Nodup
  bound : ∀ i ∈ assigned, i < items.length
  perm : ((stm.map Prod.snd).flatten).Perm assigned
  keysNodup : (stm.map Prod.fst).Nodup
  entries : ∀ p ∈ stm, p.2 ≠ [] ∧ p.1 ∈ storeIds
  carried : ∀ p ∈ stm, ∀ i ∈ p.2, i < items.length ∧
    itemCarried rows (items.getD i default) p.1 = true
  dupCoh : ∀ i j, i < items.length → j < items.length →
    items.getD i default = items.getD j default → (i ∈ assigned ↔ j ∈ assigned)

/-! ### Lemmas about the allocation primitives -/

theorem itemOptions_ok_of_falsy (rows : List ProductsRow) (it : OrderItem)
    (h : strTruthy (itemMid it) = false) : itemOptions rows it = Except.ok [] := by
  unfold itemOptions
  simp [h]

theorem itemOptions_ok_of_row (rows : List ProductsRow) (it : OrderItem)
    (r : ProductsRow) (hr : r ∈ rows) (hm : r.master_product_id = (itemMid it).getD "") :
    ∃ options, itemOptions rows it = Except.ok options := by
  unfold itemOptions
  by_cases ht : strTruthy (itemMid it) = true
  · simp only [ht, if_true]
    unfold byMasterGet
    have hmem : r ∈ rows.filter (fun q => q.master_product_id == (itemMid it).getD "") := by
      simp [List.mem_filter, hr, hm]
    have hne : (rows.filter (fun q => q.master_product_id == (itemMid it).getD "")).isEmpty = false := by
      cases hl : rows.filter (fun q => q.master_product_id == (itemMid it).getD "") with
      | nil => rw [hl] at hmem; cases hmem
      | cons a l => rfl
    simp only [hne]
    exact ⟨_, rfl⟩
  · simp [eq_false_of_ne_true ht]

theorem itemOptions_ok_sub (rows : List ProductsRow) (it : OrderItem)
    (options : List ProductsRow) (h : itemOptions rows it = Except.ok options) :
    ∀ o ∈ options, o ∈ rows ∧ o.master_product_id = (itemMid it).getD "" := by
  unfold itemOptions at h
  by_cases ht : strTruthy (itemMid it) = true
  · simp only [ht, if_true] at h
    unfold byMasterGet at h
    by_cases he : (rows.filter (fun q => q.master_product_id == (itemMid it).getD "")).isEmpty = true
    · simp [he] at h
    · simp only [eq_false_of_ne_true he, Bool.false_eq_true, if_false, Except.ok.injEq] at h
      subst h
      intro o ho
      have := List.mem_filter.mp ho
      exact ⟨this.1, by simpa using this.2⟩
  · simp only [eq_false_of_ne_true ht, Bool.false_eq_true, if_false, Except.ok.injEq] at h
    subst h
    intro o ho
    cases ho

theorem itemCarried_exists_row (rows : List ProductsRow) (it : OrderItem) (s : String)
    (h : itemCarried rows it s = true) :
    ∃ r ∈ rows, r.master_product_id = (itemMid it).getD "" ∧ r.store_id = s := by
  unfold itemCarried at h
  cases ho : itemOptions rows it with
  | error e => rw [ho] at h; cases h
  | ok options =>
    rw [ho] at h
    obtain ⟨o, hmem, hbeq⟩ := List.any_eq_true.mp h
    have hsub := itemOptions_ok_sub rows it options ho o hmem
    exact ⟨o, hsub.1, hsub.2, by simpa using hbeq⟩

theorem itemCarried_of_row (rows : List ProductsRow) (it : OrderItem) (s : String)
    (r : ProductsRow) (ht : strTruthy (itemMid it) = true) (hr : r ∈ rows)
    (hm : r.master_product_id = (itemMid it).getD "") (hs : r.store_id = s) :
    itemCarried rows it s = true := by
  unfold itemCarried itemOptions byMasterGet
  have hmem : r ∈ rows.filter (fun q => q.master_product_id == (itemMid it).getD "") := by
    simp [List.mem_filter, hr, hm]
  have hne : (rows.filter (fun q => q.master_product_id == (itemMid it).getD "")).isEmpty = false := by
    cases hl : rows.filter (fun q => q.master_product_id == (itemMid it).getD "") with
    | nil => rw [hl] at hmem; cases hmem
    | cons a l => rfl
  simp only [ht, if_true, hne, Bool.false_eq_true, if_false]
  exact List.any_eq_true.mpr ⟨r, hmem, by simp [hs]⟩

theorem itemCarried_eq_any (rows : List ProductsRow) (it : OrderItem) (s : String)
    (options : List ProductsRow) (h : itemOptions rows it = Except.ok options) :
    itemCarried rows it s = options.any (fun o => o.store_id == s) := by
  unfold itemCarried
  rw [h]

theorem countFor_ok (rows : List ProductsRow) (allItems : List OrderItem) (assigned : List ℕ)
    (s : String) (sub : List OrderItem)
    (hsafe : ∀ it ∈ sub, assigned.contains (allItems.indexOf it) = false →
      ∃ options, itemOptions rows it = Except.ok options) :
    ∃ c, countFor rows allItems assigned s sub = Except.ok c := by
  induction sub with
  | nil => exact ⟨0, rfl⟩
  | cons it rest ih =>
    obtain ⟨c, hc⟩ := ih (fun x hx => hsafe x (List.mem_cons_of_mem _ hx))
    by_cases hct : assigned.contains (allItems.indexOf it) = true
    · exact ⟨c, by simp only [countFor, hct, if_true, hc]⟩
    · obtain ⟨options, hop⟩ := hsafe it (List.mem_cons_self it rest) (eq_false_of_ne_true hct)
      refine ⟨if options.any (fun o => o.store_id == s) then c + 1 else c, ?_⟩
      simp only [countFor, eq_false_of_ne_true hct, Bool.false_eq_true, if_false, hop, hc]

theorem countFor_pos (rows : List ProductsRow) (allItems : List OrderItem) (assigned : List ℕ)
    (s : String) (sub : List OrderItem) (it : OrderItem) (c : ℕ)
    (hmem : it ∈ sub) (hct : assigned.contains (allItems.indexOf it) = false)
    (hcar : itemCarried rows it s = true)
    (h : countFor rows allItems assigned s sub = Except.ok c) : 0 < c := by
  induction sub generalizing c with
  | nil => cases hmem
  | cons x rest ih =>
    rcases List.mem_cons.mp hmem with heq | hrest
    · subst heq
      simp only [countFor, hct, Bool.false_eq_true, if_false] at h
      cases ho : itemOptions rows it with
      | error e => rw [ho] at h; cases h
      | ok options =>
        cases hrc : countFor rows allItems assigned s rest with
        | error e => simp only [ho, hrc] at h; exact Except.noConfusion h
        | ok c2 =>
          have hany : options.any (fun o => o.store_id == s) = true := by
            rw [itemCarried_eq_any rows it s options ho] at hcar
            exact hcar
          simp only [ho, hrc, hany, if_true, Except.ok.injEq] at h
          omega
    · by_cases hcx : assigned.contains (allItems.indexOf x) = true
      · simp only [countFor, hcx, if_true] at h
        exact ih c hrest h
      · simp only [countFor, eq_false_of_ne_true hcx, Bool.false_eq_true, if_false] at h
        cases ho : itemOptions rows x with
        | error e => rw [ho] at h; cases h
        | ok options =>
          cases hrc : countFor rows allItems assigned s rest with
          | error e => simp only [ho, hrc] at h; exact Except.noConfusion h
          | ok c2 =>
            have hc2 := ih c2 hrest hrc
            simp only [ho, hrc, Except.ok.injEq] at h
            by_cases hany : options.any (fun o => o.store_id == s) = true
            · rw [if_pos hany] at h
              omega
            · rw [if_neg hany] at h
              omega

theorem countFor_pos_exists (rows : List ProductsRow) (allItems : List OrderItem)
    (assigned : List ℕ) (s : String) (sub : List OrderItem) (c : ℕ)
    (h : countFor rows allItems assigned s sub = Except.ok c) (hpos : 0 < c) :
    ∃ it ∈ sub, assigned.contains (allItems.indexOf it) = false ∧
      itemCarried rows it s = true := by
  induction sub generalizing c with
  | nil =>
    simp only [countFor, Except.ok.injEq] at h
    omega
  | cons x rest ih =>
    by_cases hcx : assigned.contains (allItems.indexOf x) = true
    · simp only [countFor, hcx, if_true] at h
      obtain ⟨it, hmem, hp⟩ := ih c h hpos
      exact ⟨it, List.mem_cons_of_mem _ hmem, hp⟩
    · simp only [countFor, eq_false_of_ne_true hcx, Bool.false_eq_true, if_false] at h
      cases ho : itemOptions rows x with
      | error e => rw [ho] at h; cases h
      | ok options =>
        cases hrc : countFor rows allItems assigned s rest with
        | error e => simp only [ho, hrc] at h; exact Except.noConfusion h
        | ok c2 =>
          simp only [ho, hrc, Except.ok.injEq] at h
          by_cases hany : options.any (fun o => o.store_id == s) = true
          · refine ⟨x, List.mem_cons_self x rest, eq_false_of_ne_true hcx, ?_⟩
            rw [itemCarried_eq_any rows x s options ho]
            exact hany
          · rw [if_neg hany] at h
            subst h
            obtain ⟨it, hmem, hp⟩ := ih c2 hrc hpos
            exact ⟨it, List.mem_cons_of_mem _ hmem, hp⟩


theorem findBest_ok (rows : List ProductsRow) (items : List OrderItem) (assigned : List ℕ)
    (ss : List String)
    (hok : ∀ s ∈ ss, ∃ c, countFor rows items assigned s items = Except.ok c) :
    ∀ acc, ∃ r, findBest rows items assigned ss acc = Except.ok r := by
  induction ss with
  | nil => intro acc; exact ⟨acc, rfl⟩
  | cons s rest ih =>
    intro acc
    obtain ⟨bs, bc⟩ := acc
    obtain ⟨c, hc⟩ := hok s (List.mem_cons_self s rest)
    obtain ⟨r, hr⟩ := ih (fun t ht => hok t (List.mem_cons_of_mem _ ht))
      (if bc < c then (some s, c) else (bs, bc))
    exact ⟨r, by simp only [findBest, hc, hr]⟩

theorem findBest_spec (rows : List ProductsRow) (items : List OrderItem) (assigned : List ℕ) :
    ∀ (ss : List String) (bs : Option String) (bc : ℕ) (bs2 : Option String) (bc2 : ℕ),
      findBest rows items assigned ss (bs, bc) = Except.ok (bs2, bc2) →
      bc ≤ bc2 ∧
      (∀ s c, s ∈ ss → countFor rows items assigned s items = Except.ok c → c ≤ bc2) ∧
      ((bs2 = bs ∧ bc2 = bc) ∨ ∃ s, s ∈ ss ∧ bs2 = some s ∧
        countFor rows items assigned s items = Except.ok bc2 ∧ bc < bc2) := by
  intro ss
  induction ss with
  | nil =>
    intro bs bc bs2 bc2 h
    simp only [findBest, Except.ok.injEq, Prod.mk.injEq] at h
    refine ⟨le_of_eq h.2, ?_, Or.inl ⟨h.1.symm, h.2.symm⟩⟩
    intro s c hs
    cases hs
  | cons s rest ih =>
    intro bs bc bs2 bc2 h
    simp only [findBest] at h
    cases hc : countFor rows items assigned s items with
    | error e => simp only [hc] at h; exact Except.noConfusion h
    | ok c =>
      simp only [hc] at h
      by_cases hlt : bc < c
      · rw [if_pos hlt] at h
        obtain ⟨h1, h2, h3⟩ := ih (some s) c bs2 bc2 h
        refine ⟨le_trans (le_of_lt hlt) h1, ?_, ?_⟩
        · intro t ct hmem hct
          rcases List.mem_cons.mp hmem with rfl | hmr
          · have : ct = c := by rw [hc] at hct; exact (Except.ok.injEq _ _).mp hct.symm
            omega
          · exact h2 t ct hmr hct
        · rcases h3 with ⟨hb, hcc⟩ | ⟨t, hmem, hb, hcount, hlt2⟩
          · exact Or.inr ⟨s, List.mem_cons_self s rest, hb, by rw [hcc]; exact hc, by omega⟩
          · exact Or.inr ⟨t, List.mem_cons_of_mem _ hmem, hb, hcount, by omega⟩
      · rw [if_neg hlt] at h
        obtain ⟨h1, h2, h3⟩ := ih bs bc bs2 bc2 h
        refine ⟨h1, ?_, ?_⟩
        · intro t ct hmem hct
          rcases List.mem_cons.mp hmem with rfl | hmr
          · have : ct = c := by rw [hc] at hct; exact (Except.ok.injEq _ _).mp hct.symm
            omega
          · exact h2 t ct hmr hct
        · rcases h3 with hleft | ⟨t, hmem, hb, hcount, hlt2⟩
          · exact Or.inl hleft
          · exact Or.inr ⟨t, List.mem_cons_of_mem _ hmem, hb, hcount, hlt2⟩

theorem natContains_false_iff (l : List ℕ) (x : ℕ) : l.contains x = false ↔ x ∉ l := by
  simp

theorem buildChunk_ok (rows : List ProductsRow) (items : List OrderItem) (best : String) :
    ∀ (idxList assigned : List ℕ),
      (∀ i ∈ idxList, assigned.contains i = false →
        ∃ options, itemOptions rows (items.getD i default) = Except.ok options) →
      ∃ l, buildChunk rows items best idxList assigned = Except.ok l := by
  intro idxList
  induction idxList with
  | nil => intro assigned _; exact ⟨[], rfl⟩
  | cons i rest ih =>
    intro assigned hsafe
    by_cases hci : assigned.contains i = true
    · obtain ⟨l, hl⟩ := ih assigned (fun j hj => hsafe j (List.mem_cons_of_mem _ hj))
      exact ⟨l, by simp only [buildChunk, hci, if_true, hl]⟩
    · obtain ⟨options, hop⟩ := hsafe i (List.mem_cons_self i rest) (eq_false_of_ne_true hci)
      by_cases hany : options.any (fun o => o.store_id == best) = true
      · have hsafe2 : ∀ j ∈ rest, (assigned ++ [i]).contains j = false →
            ∃ opt2, itemOptions rows (items.getD j default) = Except.ok opt2 := by
          intro j hj hcj
          refine hsafe j (List.mem_cons_of_mem _ hj) ?_
          rw [natContains_false_iff] at hcj ⊢
          intro hmem
          exact hcj (List.mem_append.mpr (Or.inl hmem))
        obtain ⟨l, hl⟩ := ih (assigned ++ [i]) hsafe2
        exact ⟨i :: l, by simp only [buildChunk, eq_false_of_ne_true hci, Bool.false_eq_true,
          if_false, hop, hany, if_true, hl]⟩
      · obtain ⟨l, hl⟩ := ih assigned (fun j hj => hsafe j (List.mem_cons_of_mem _ hj))
        exact ⟨l, by simp only [buildChunk, eq_false_of_ne_true hci, Bool.false_eq_true,
          if_false, hop, eq_false_of_ne_true hany, hl]⟩

theorem buildChunk_mem (rows : List ProductsRow) (items : List OrderItem) (best : String) :
    ∀ (idxList assigned l : List ℕ), idxList.Nodup →
      buildChunk rows items best idxList assigned = Except.ok l →
      ∀ j, j ∈ l ↔ (j ∈ idxList ∧ assigned.contains j = false ∧
        itemCarried rows (items.getD j default) best = true) := by
  intro idxList
  induction idxList with
  | nil =>
    intro assigned l _ h j
    simp only [buildChunk, Except.ok.injEq] at h
    subst h
    simp
  | cons i rest ih =>
    intro assigned l hnd h j
    have hndr := (List.nodup_cons.mp hnd).2
    have hnmem := (List.nodup_cons.mp hnd).1
    by_cases hci : assigned.contains i = true
    · simp only [buildChunk, hci, if_true] at h
      rw [ih assigned l hndr h j]
      constructor
      · rintro ⟨h1, h2, h3⟩
        exact ⟨List.mem_cons_of_mem _ h1, h2, h3⟩
      · rintro ⟨h1, h2, h3⟩
        rcases List.mem_cons.mp h1 with rfl | h1r
        · rw [hci] at h2; cases h2
        · exact ⟨h1r, h2, h3⟩
    · simp only [buildChunk, eq_false_of_ne_true hci, Bool.false_eq_true, if_false] at h
      cases hop : itemOptions rows (items.getD i default) with
      | error e => rw [hop] at h; exact absurd h (by simp)
      | ok options =>
        by_cases hany : options.any (fun o => o.store_id == best) = true
        · simp only [hop, hany, if_true] at h
          cases hrc : buildChunk rows items best rest (assigned ++ [i]) with
          | error e => rw [hrc] at h; exact absurd h (by simp)
          | ok l2 =>
            rw [hrc] at h
            simp only [Except.ok.injEq] at h
            subst h
            have hih := ih (assigned ++ [i]) l2 hndr hrc
            by_cases hji : j = i
            · subst hji
              constructor
              · intro _
                refine ⟨List.mem_cons_self j rest, eq_false_of_ne_true hci, ?_⟩
                rw [itemCarried_eq_any rows _ best options hop]
                exact hany
              · intro _
                exact List.mem_cons_self j l2
            · have hmc : j ∈ i :: l2 ↔ j ∈ l2 := by
                simp [List.mem_cons, hji]
              rw [hmc, hih j]
              have hca : (assigned ++ [i]).contains j = assigned.contains j := by
                rw [List.contains_eq_any_beq, List.contains_eq_any_beq, List.any_append]
                have hsingle : [i].any (fun x => j == x) = false := by simp [hji]
                rw [hsingle, Bool.or_false]
              rw [hca]
              constructor
              · rintro ⟨h1, h2, h3⟩
                exact ⟨List.mem_cons_of_mem _ h1, h2, h3⟩
              · rintro ⟨h1, h2, h3⟩
                rcases List.mem_cons.mp h1 with rfl | h1r
                · exact absurd rfl hji
                · exact ⟨h1r, h2, h3⟩
        · simp only [hop, eq_false_of_ne_true hany, Bool.false_eq_true, if_false] at h
          have hih := ih assigned l hndr h
          rw [hih j]
          constructor
          · rintro ⟨h1, h2, h3⟩
            exact ⟨List.mem_cons_of_mem _ h1, h2, h3⟩
          · rintro ⟨h1, h2, h3⟩
            rcases List.mem_cons.mp h1 with rfl | h1r
            · rw [itemCarried_eq_any rows _ best options hop] at h3
              rw [h3] at hany
              exact absurd rfl hany
            · exact ⟨h1r, h2, h3⟩

theorem buildChunk_nodup (rows : List ProductsRow) (items : List OrderItem) (best : String) :
    ∀ (idxList assigned l : List ℕ), idxList.Nodup →
      buildChunk rows items best idxList assigned = Except.ok l → l.Nodup := by
  intro idxList
  induction idxList with
  | nil =>
    intro assigned l _ h
    simp only [buildChunk, Except.ok.injEq] at h
    subst h
    exact List.nodup_nil
  | cons i rest ih =>
    intro assigned l hnd h
    have hndr := (List.nodup_cons.mp hnd).2
    have hnmem := (List.nodup_cons.mp hnd).1
    by_cases hci : assigned.contains i = true
    · simp only [buildChunk, hci, if_true] at h
      exact ih assigned l hndr h
    · simp only [buildChunk, eq_false_of_ne_true hci, Bool.false_eq_true, if_false] at h
      cases hop : itemOptions rows (items.getD i default) with
      | error e => rw [hop] at h; exact absurd h (by simp)
      | ok options =>
        by_cases hany : options.any (fun o => o.store_id == best) = true
        · simp only [hop, hany, if_true] at h
          cases hrc : buildChunk rows items best rest (assigned ++ [i]) with
          | error e => rw [hrc] at h; exact absurd h (by simp)
          | ok l2 =>
            rw [hrc] at h
            simp only [Except.ok.injEq] at h
            subst h
            refine List.nodup_cons.mpr ⟨?_, ih (assigned ++ [i]) l2 hndr hrc⟩
            intro hmem
            have := (buildChunk_mem rows items best rest (assigned ++ [i]) l2 hndr hrc i).mp hmem
            exact hnmem this.1
        · simp only [hop, eq_false_of_ne_true hany, Bool.false_eq_true, if_false] at h
          exact ih assigned l hndr h

theorem amSet_cons_ne {α : Type} (p : String × α) (m : List (String × α)) (k : String) (v : α)
    (hne : p.1 ≠ k) : amSet (p :: m) k v = p :: amSet m k v := by
  unfold amSet
  have hpb : (p.1 == k) = false := by simp [hne]
  by_cases hany : m.any (fun q => q.1 == k) = true
  · simp only [List.any_cons, hpb, Bool.false_or, hany, if_true, List.map_cons,
      Bool.false_eq_true, if_false]
  · simp only [List.any_cons, hpb, Bool.false_or, eq_false_of_ne_true hany, Bool.false_eq_true,
      if_false, List.cons_append]

theorem amGet_cons_ne {α : Type} (p : String × α) (m : List (String × α)) (k : String)
    (hne : p.1 ≠ k) : amGet (p :: m) k = amGet m k := by
  unfold amGet
  rw [List.find?_cons_of_neg]
  simp [hne]

theorem amGet_cons_eq {α : Type} (p : String × α) (m : List (String × α))
    : amGet (p :: m) p.1 = some p.2 := by
  unfold amGet
  rw [List.find?_cons_of_pos _ (by simp)]
  rfl

/-- Appending `w` to the entry of key `k` (creating the entry when absent)
extends the concatenation of all values by `w`, up to permutation, when the
map's keys are distinct. -/
theorem amSet_flatten_perm {α : Type} (m : List (String × List α)) (k : String) (w : List α)
    (hnd : (m.map Prod.fst).Nodup) :
    ((amSet m k (((amGet m k).getD []) ++ w)).map Prod.snd).flatten.Perm
      ((m.map Prod.snd).flatten ++ w) := by
  induction m with
  | nil =>
    unfold amSet amGet
    simp
  | cons p rest ih =>
    have hndr : (rest.map Prod.fst).Nodup := by
      rw [List.map_cons] at hnd
      exact (List.nodup_cons.mp hnd).2
    have hkey : p.1 ∉ rest.map Prod.fst := by
      rw [List.map_cons] at hnd
      exact (List.nodup_cons.mp hnd).1
    by_cases hpk : p.1 = k
    · subst hpk
      rw [amGet_cons_eq p rest]
      have hrepl : amSet (p :: rest) p.1 ((some p.2).getD [] ++ w) =
          (p.1, p.2 ++ w) :: rest := by
        unfold amSet
        have hany : (p :: rest).any (fun q => q.1 == p.1) = true := by
          simp [List.any_cons]
        rw [if_pos hany]
        simp only [List.map_cons, beq_self_eq_true, if_true, Option.getD_some]
        congr 1
        conv_rhs => rw [← List.map_id rest]
        apply List.map_congr_left
        intro q hq
        have hqne : (q.1 == p.1) = false := by
          have hqmem : q.1 ∈ rest.map Prod.fst := List.mem_map_of_mem Prod.fst hq
          have hne : q.1 ≠ p.1 := fun he => hkey (he ▸ hqmem)
          simp [hne]
        rw [hqne]
        simp
      rw [hrepl]
      simp only [List.map_cons, List.flatten_cons, Option.getD_some]
      have h1 : (p.2 ++ w) ++ (rest.map Prod.snd).flatten =
          p.2 ++ (w ++ (rest.map Prod.snd).flatten) := List.append_assoc _ _ _
      have h2 : p.2 ++ ((rest.map Prod.snd).flatten ++ w) =
          (p.2 ++ (rest.map Prod.snd).flatten) ++ w := (List.append_assoc _ _ _).symm
      rw [h1, ← h2]
      exact List.Perm.append_left p.2 List.perm_append_comm
    · rw [amGet_cons_ne p rest k hpk, amSet_cons_ne p rest k _ hpk]
      simp only [List.map_cons, List.flatten_cons]
      have hperm := List.Perm.append_left p.2 (ih hndr)
      refine hperm.trans ?_
      rw [List.append_assoc]

/-- Setting key `k` leaves the key list unchanged when present and appends
`k` when absent. -/
theorem amSet_keys {α : Type} (m : List (String × α)) (k : String) (v : α) :
    (amSet m k v).map Prod.fst =
      (if m.any (fun q => q.1 == k) then m.map Prod.fst else m.map Prod.fst ++ [k]) := by
  unfold amSet
  by_cases hany : m.any (fun q => q.1 == k) = true
  · rw [if_pos hany, if_pos hany, List.map_map]
    apply List.map_congr_left
    intro q _
    by_cases hqk : (q.1 == k) = true
    · simp only [Function.comp_apply, hqk, if_true]
      exact (beq_iff_eq.mp hqk).symm
    · simp only [Function.comp_apply, eq_false_of_ne_true hqk, Bool.false_eq_true, if_false]
  · rw [if_neg hany, if_neg hany, List.map_append]
    rfl

theorem amSet_keys_nodup {α : Type} (m : List (String × α)) (k : String) (v : α)
    (hnd : (m.map Prod.fst).Nodup) : ((amSet m k v).map Prod.fst).Nodup := by
  rw [amSet_keys]
  by_cases hany : m.any (fun q => q.1 == k) = true
  · rw [if_pos hany]; exact hnd
  · rw [if_neg hany]
    refine List.Nodup.append hnd (List.nodup_singleton k) ?_
    intro x hx hxk
    have hxe : x = k := by simpa using hxk
    subst hxe
    have hall := List.any_eq_false.mp (eq_false_of_ne_true hany)
    obtain ⟨q, hq, hqx⟩ := List.mem_map.mp hx
    exact hall q hq (by simp [hqx])

theorem amSet_mem {α : Type} (m : List (String × α)) (k : String) (v : α) (q : String × α)
    (hq : q ∈ amSet m k v) : q = (k, v) ∨ (q ∈ m ∧ q.1 ≠ k) := by
  unfold amSet at hq
  by_cases hany : m.any (fun p => p.1 == k) = true
  · rw [if_pos hany] at hq
    obtain ⟨p, hp, hpq⟩ := List.mem_map.mp hq
    by_cases hpk : (p.1 == k) = true
    · rw [if_pos hpk] at hpq
      exact Or.inl hpq.symm
    · rw [if_neg hpk] at hpq
      subst hpq
      exact Or.inr ⟨hp, by simpa using hpk⟩
  · rw [if_neg hany] at hq
    rcases List.mem_append.mp hq with hm | hs
    · have hall := List.any_eq_false.mp (eq_false_of_ne_true hany)
      exact Or.inr ⟨hm, fun he => hall q hm (by simp [he])⟩
    · simp at hs
      exact Or.inl hs

theorem amGet_of_mem_nodup {α : Type} (m : List (String × α))
    (hnd : (m.map Prod.fst).Nodup) (p : String × α) (hp : p ∈ m) :
    amGet m p.1 = some p.2 := by
  induction m with
  | nil => cases hp
  | cons q rest ih =>
    have hndr : (rest.map Prod.fst).Nodup := by
      rw [List.map_cons] at hnd
      exact (List.nodup_cons.mp hnd).2
    have hkey : q.1 ∉ rest.map Prod.fst := by
      rw [List.map_cons] at hnd
      exact (List.nodup_cons.mp hnd).1
    rcases List.mem_cons.mp hp with rfl | hpr
    · exact amGet_cons_eq p rest
    · have hne : q.1 ≠ p.1 := by
        intro he
        exact hkey (he ▸ List.mem_map_of_mem Prod.fst hpr)
      rw [amGet_cons_ne q rest p.1 hne]
      exact ih hndr hpr

theorem amGet_some_mem {α : Type} (m : List (String × α)) (k : String) (v : α)
    (h : amGet m k = some v) : ∃ p ∈ m, p.1 = k ∧ p.2 = v := by
  unfold amGet at h
  cases hf : m.find? (fun p => p.1 == k) with
  | none => rw [hf] at h; cases h
  | some q =>
    rw [hf] at h
    simp only [Option.map_some', Option.some.injEq] at h
    exact ⟨q, List.mem_of_find?_eq_some hf, by simpa using List.find?_some hf, h⟩

theorem allocInv_init (rows : List ProductsRow) (items : List OrderItem)
    (storeIds : List String) : AllocInv rows items storeIds [] [] where
  nodup := List.nodup_nil
  bound := by intro i hi; cases hi
  perm := by simp
  keysNodup := List.nodup_nil
  entries := by intro p hp; cases hp
  carried := by intro p hp; cases hp
  dupCoh := by intro i j _ _ _; simp

theorem allocInv_step (rows : List ProductsRow) (items : List OrderItem)
    (storeIds : List String) (assigned : List ℕ) (stm : List (String × List ℕ))
    (best : String) (bc : ℕ) (chunk : List ℕ)
    (inv : AllocInv rows items storeIds assigned stm)
    (hfb : findBest rows items assigned storeIds (none, 0) = Except.ok (some best, bc))
    (hch : buildChunk rows items best (List.range items.length) assigned = Except.ok chunk) :
    AllocInv rows items storeIds (assigned ++ chunk)
      (amSet stm best (((amGet stm best).getD []) ++ chunk)) ∧ chunk ≠ [] := by
  have hmem := buildChunk_mem rows items best (List.range items.length) assigned chunk
    (List.nodup_range _) hch
  have hcnodup := buildChunk_nodup rows items best (List.range items.length) assigned chunk
    (List.nodup_range _) hch
  obtain ⟨_, hmax, hdisj⟩ := findBest_spec rows items assigned storeIds none 0 (some best) bc hfb
  have hbestfacts : best ∈ storeIds ∧
      countFor rows items assigned best items = Except.ok bc ∧ 0 < bc := by
    rcases hdisj with ⟨hb, _⟩ | ⟨s, hs, hb, hcount, hpos⟩
    · cases hb
    · have hsb : s = best := by injection hb with hinj; exact hinj.symm
      subst hsb
      exact ⟨hs, hcount, hpos⟩
  obtain ⟨hbmem, hbcount, hbpos⟩ := hbestfacts
  have hchne : chunk ≠ [] := by
    obtain ⟨it, hit, hct, hcar⟩ :=
      countFor_pos_exists rows items assigned best items bc hbcount hbpos
    have hlt : items.indexOf it < items.length := List.indexOf_lt_length.mpr hit
    have hgetd : items.getD (items.indexOf it) default = it := by
      rw [List.getD_eq_getElem items default hlt]
      exact List.getElem_indexOf hlt
    have : items.indexOf it ∈ chunk := by
      rw [hmem]
      exact ⟨List.mem_range.mpr hlt, hct, by rw [hgetd]; exact hcar⟩
    exact List.ne_nil_of_mem this
  have hchdisj : ∀ i ∈ chunk, i ∉ assigned := by
    intro i hi
    have := (hmem i).mp hi
    rw [natContains_false_iff] at this
    exact this.2.1
  have hchbound : ∀ i ∈ chunk, i < items.length := by
    intro i hi
    exact List.mem_range.mp ((hmem i).mp hi).1
  have hchcar : ∀ i ∈ chunk, itemCarried rows (items.getD i default) best = true := by
    intro i hi
    exact ((hmem i).mp hi).2.2
  refine ⟨?_, hchne⟩
  constructor
  · exact List.Nodup.append inv.nodup hcnodup (fun a ha hb => hchdisj a hb ha)
  · intro i hi
    rcases List.mem_append.mp hi with hm | hm
    · exact inv.bound i hm
    · exact hchbound i hm
  · exact (amSet_flatten_perm stm best chunk inv.keysNodup).trans
      (List.Perm.append_right chunk inv.perm)
  · exact amSet_keys_nodup stm best _ inv.keysNodup
  · intro p hp
    rcases amSet_mem stm best _ p hp with rfl | ⟨hpm, _⟩
    · refine ⟨?_, hbmem⟩
      intro habs
      rcases List.append_eq_nil.mp habs with ⟨_, hc⟩
      exact hchne hc
    · exact inv.entries p hpm
  · intro p hp i hi
    rcases amSet_mem stm best _ p hp with rfl | ⟨hpm, _⟩
    · rcases List.mem_append.mp hi with hm | hm
      · cases hget : amGet stm best with
        | none => rw [hget] at hm; cases hm
        | some w =>
          rw [hget] at hm
          obtain ⟨q, hqm, hq1, hq2⟩ := amGet_some_mem stm best w hget
          have := inv.carried q hqm i (by rw [hq2]; exact hm)
          rw [hq1] at this
          exact this
      · exact ⟨hchbound i hm, hchcar i hm⟩
    · exact inv.carried p hpm i hi
  · intro i j hilt hjlt heq
    have hchcoh : i ∈ chunk ↔ j ∈ chunk := by
      rw [hmem i, hmem j]
      have hcteq : assigned.contains i = false ↔ assigned.contains j = false := by
        rw [natContains_false_iff, natContains_false_iff]
        rw [inv.dupCoh i j hilt hjlt heq]
      rw [heq]
      constructor
      · rintro ⟨_, h2, h3⟩
        exact ⟨List.mem_range.mpr hjlt, hcteq.mp h2, h3⟩
      · rintro ⟨_, h2, h3⟩
        exact ⟨List.mem_range.mpr hilt, hcteq.mpr h2, h3⟩
    rw [List.mem_append, List.mem_append]
    rw [inv.dupCoh i j hilt hjlt heq, hchcoh]

theorem allocLoop_inv (rows : List ProductsRow) (items : List OrderItem)
    (storeIds : List String) :
    ∀ (fuel : ℕ) (assigned : List ℕ) (stm stm2 : List (String × List ℕ)) (assigned2 : List ℕ),
      AllocInv rows items storeIds assigned stm →
      allocLoop rows items storeIds fuel assigned stm = Except.ok (stm2, assigned2) →
      AllocInv rows items storeIds assigned2 stm2 := by
  intro fuel
  induction fuel with
  | zero =>
    intro assigned stm stm2 assigned2 inv h
    simp only [allocLoop, Except.ok.injEq, Prod.mk.injEq] at h
    rw [← h.1, ← h.2]
    exact inv
  | succ fuel ih =>
    intro assigned stm stm2 assigned2 inv h
    simp only [allocLoop] at h
    by_cases hlen : assigned.length < items.length
    · rw [if_pos hlen] at h
      cases hfb : findBest rows items assigned storeIds (none, 0) with
      | error e => simp only [hfb] at h; exact Except.noConfusion h
      | ok r =>
        obtain ⟨bs, bc⟩ := r
        cases bs with
        | none =>
          simp only [hfb, Except.ok.injEq, Prod.mk.injEq] at h
          rw [← h.1, ← h.2]
          exact inv
        | some best =>
          simp only [hfb] at h
          by_cases hie : best.isEmpty = true
          · rw [if_pos hie] at h
            simp only [Except.ok.injEq, Prod.mk.injEq] at h
            rw [← h.1, ← h.2]
            exact inv
          · rw [if_neg hie] at h
            by_cases hbc : bc = 0
            · rw [if_pos hbc] at h
              simp only [Except.ok.injEq, Prod.mk.injEq] at h
              rw [← h.1, ← h.2]
              exact inv
            · rw [if_neg hbc] at h
              cases hch : buildChunk rows items best (List.range items.length) assigned with
              | error e => simp only [hch] at h; exact Except.noConfusion h
              | ok chunk =>
                simp only [hch] at h
                obtain ⟨inv2, _⟩ := allocInv_step rows items storeIds assigned stm best bc chunk
                  inv hfb hch
                exact ih (assigned ++ chunk) _ stm2 assigned2 inv2 h
    · rw [if_neg hlen] at h
      simp only [Except.ok.injEq, Prod.mk.injEq] at h
      rw [← h.1, ← h.2]
      exact inv

theorem all_mem_of_nodup_bound (assigned : List ℕ) (n : ℕ) (hnd : assigned.Nodup)
    (hb : ∀ i ∈ assigned, i < n) (hlen : n ≤ assigned.length) : ∀ i < n, i ∈ assigned := by
  have hsub : assigned.toFinset ⊆ Finset.range n := by
    intro x hx
    simp only [List.mem_toFinset] at hx
    exact Finset.mem_range.mpr (hb x hx)
  have hcard : (Finset.range n).card ≤ assigned.toFinset.card := by
    rw [List.toFinset_card_of_nodup hnd, Finset.card_range]
    exact hlen
  have heq := Finset.eq_of_subset_of_card_le hsub hcard
  intro i hi
  have hfin : i ∈ assigned.toFinset := by rw [heq]; exact Finset.mem_range.mpr hi
  simpa using hfin

theorem exists_unassigned (assigned : List ℕ) (n : ℕ) (hnd : assigned.Nodup)
    (hlt : assigned.length < n) :
    ∃ i, i < n ∧ i ∉ assigned := by
  by_contra hcon
  push_neg at hcon
  have hsub : Finset.range n ⊆ assigned.toFinset := by
    intro x hx
    simp only [List.mem_toFinset]
    exact hcon x (Finset.mem_range.mp hx)
  have : n ≤ assigned.length := by
    rw [← Finset.card_range n, ← List.toFinset_card_of_nodup hnd]
    exact Finset.card_le_card hsub
  omega

theorem allocLoop_total (rows : List ProductsRow) (items : List OrderItem)
    (storeIds : List String)
    (H : ∀ it ∈ items, strTruthy (itemMid it) = true ∧
      ∃ r ∈ rows, r.master_product_id = (itemMid it).getD "" ∧ r.store_id ∈ storeIds)
    (hnes : "" ∉ storeIds) :
    ∀ (fuel : ℕ) (assigned : List ℕ) (stm : List (String × List ℕ)),
      AllocInv rows items storeIds assigned stm →
      items.length ≤ fuel + assigned.length →
      ∃ stm2 assigned2, allocLoop rows items storeIds fuel assigned stm =
        Except.ok (stm2, assigned2) ∧ ∀ i < items.length, i ∈ assigned2 := by
  have hsafeAll : ∀ it ∈ items, ∃ options, itemOptions rows it = Except.ok options := by
    intro it hit
    obtain ⟨_, r, hr, hmaster, _⟩ := H it hit
    exact itemOptions_ok_of_row rows it r hr hmaster
  intro fuel
  induction fuel with
  | zero =>
    intro assigned stm inv hle
    refine ⟨stm, assigned, rfl, ?_⟩
    intro i hi
    exact all_mem_of_nodup_bound assigned items.length inv.nodup inv.bound
      (by omega) i hi
  | succ fuel ih =>
    intro assigned stm inv hle
    by_cases hlen : assigned.length < items.length
    · obtain ⟨i0, hi0lt, hi0n⟩ := exists_unassigned assigned items.length inv.nodup hlen
      have hit0 : items.getD i0 default ∈ items := by
        rw [List.getD_eq_getElem items default hi0lt]
        exact List.getElem_mem hi0lt
      obtain ⟨htr0, r, hr, hmaster, hstore⟩ := H (items.getD i0 default) hit0
      have hcountok : ∀ s ∈ storeIds, ∃ c,
          countFor rows items assigned s items = Except.ok c := by
        intro s _
        exact countFor_ok rows items assigned s items
          (fun it hit _ => hsafeAll it hit)
      obtain ⟨rr, hfb⟩ := findBest_ok rows items assigned storeIds hcountok (none, 0)
      obtain ⟨bs, bc⟩ := rr
      have hidxlt : items.indexOf (items.getD i0 default) < items.length :=
        List.indexOf_lt_length.mpr hit0
      have hgetd : items.getD (items.indexOf (items.getD i0 default)) default =
          items.getD i0 default := by
        rw [List.getD_eq_getElem items default hidxlt]
        exact List.getElem_indexOf hidxlt
      have hidxn : items.indexOf (items.getD i0 default) ∉ assigned := by
        rw [inv.dupCoh _ i0 hidxlt hi0lt hgetd]
        exact hi0n
      have hcarried : itemCarried rows (items.getD i0 default) r.store_id = true :=
        itemCarried_of_row rows _ r.store_id r htr0 hr hmaster rfl
      obtain ⟨c, hc⟩ := hcountok r.store_id hstore
      have hcpos : 0 < c := countFor_pos rows items assigned r.store_id items
        (items.getD i0 default) c hit0
        ((natContains_false_iff assigned _).mpr hidxn) hcarried hc
      obtain ⟨_, hmax, hdisj⟩ := findBest_spec rows items assigned storeIds none 0 bs bc hfb
      have hbcpos : 0 < bc := lt_of_lt_of_le hcpos (hmax r.store_id c hstore hc)
      obtain ⟨best, hbs, hbmem⟩ : ∃ best, bs = some best ∧ best ∈ storeIds := by
        rcases hdisj with ⟨_, hbc0⟩ | ⟨s, hsmem, hb, _, _⟩
        · omega
        · exact ⟨s, hb, hsmem⟩
      subst hbs
      have hie : best.isEmpty = false := by
        cases he : best.isEmpty with
        | false => rfl
        | true => exact absurd (((String.isEmpty_iff best).mp he) ▸ hbmem) hnes
      have hchsafe : ∀ j ∈ List.range items.length, assigned.contains j = false →
          ∃ options, itemOptions rows (items.getD j default) = Except.ok options := by
        intro j hj _
        have hjlt := List.mem_range.mp hj
        have : items.getD j default ∈ items := by
          rw [List.getD_eq_getElem items default hjlt]
          exact List.getElem_mem hjlt
        exact hsafeAll _ this
      obtain ⟨chunk, hch⟩ := buildChunk_ok rows items best (List.range items.length)
        assigned hchsafe
      obtain ⟨inv2, hchne⟩ := allocInv_step rows items storeIds assigned stm best bc chunk
        inv hfb hch
      have hchlen : 1 ≤ chunk.length := by
        cases chunk with
        | nil => exact absurd rfl hchne
        | cons a l => simp
      obtain ⟨stm2, assigned2, hrec, hall⟩ := ih (assigned ++ chunk)
        (amSet stm best (((amGet stm best).getD []) ++ chunk)) inv2
        (by rw [List.length_append]; omega)
      refine ⟨stm2, assigned2, ?_, hall⟩
      simp only [allocLoop, if_pos hlen, hfb, hie, Bool.false_eq_true, if_false,
        if_neg (Nat.pos_iff_ne_zero.mp hbcpos), hch]
      exact hrec
    · refine ⟨stm, assigned, ?_, ?_⟩
      · simp only [allocLoop, if_neg hlen]
      · intro i hi
        exact all_mem_of_nodup_bound assigned items.length inv.nodup inv.bound
          (by omega) i hi

theorem allocate_ok_cases (storeIds : List String) (items : List OrderItem)
    (rows : List ProductsRow) (stm : List (String × List ℕ)) (unassigned : List ℕ)
    (h : allocate storeIds items rows = Except.ok (stm, unassigned)) :
    ∃ assigned2, AllocInv rows items storeIds assigned2 stm ∧
      unassigned = (List.range items.length).filter (fun i => !assigned2.contains i) := by
  unfold allocate at h
  cases hl : allocLoop rows items storeIds (items.length + 1) [] [] with
  | error e => rw [hl] at h; exact absurd h (by simp)
  | ok r =>
    obtain ⟨stm0, a⟩ := r
    simp only [hl, Except.ok.injEq, Prod.mk.injEq] at h
    obtain ⟨h1, h2⟩ := h
    refine ⟨a, ?_, h2.symm⟩
    rw [← h1]
    exact allocLoop_inv rows items storeIds _ [] [] stm0 a (allocInv_init _ _ _) hl

/-- Every index of the final unassigned computation is genuinely unassigned,
and an empty unassigned list means every cart index is assigned. -/
theorem unassigned_empty_iff (assigned : List ℕ) (n : ℕ) :
    (List.range n).filter (fun i => !assigned.contains i) = [] ↔
      ∀ i < n, i ∈ assigned := by
  rw [List.filter_eq_nil_iff]
  constructor
  · intro h i hi
    have := h i (List.mem_range.mpr hi)
    simp at this
    exact this
  · intro h i hi
    have := h i (List.mem_range.mp hi)
    simp [this]

theorem range_map_getD {α β : Type} (l : List α) (d : α) (f : α → β) :
    (List.range l.length).map (fun i => f (l.getD i d)) = l.map f := by
  induction l with
  | nil => rfl
  | cons a rest ih =>
    rw [List.length_cons, List.range_succ_eq_map, List.map_cons]
    congr 1
    rw [List.map_map]
    rw [show ((fun i => f ((a :: rest).getD i d)) ∘ Nat.succ) =
      (fun i => f (rest.getD i d)) from rfl]
    exact ih

theorem stm_chunks_eq (items : List OrderItem) (stm : List (String × List ℕ))
    (hnd : (stm.map Prod.fst).Nodup) :
    (stm.map Prod.fst).map
        (fun sid => (((amGet stm sid).getD []).map (fun i => items.getD i default))) =
      stm.map (fun p => p.2.map (fun i => items.getD i default)) := by
  rw [List.map_map]
  apply List.map_congr_left
  intro p hp
  simp only [Function.comp_apply]
  rw [amGet_of_mem_nodup stm hnd p hp]
  rfl

theorem persistChunks_success (products : List ProductsRow) (faults : Faults) (coId : ℕ)
    (fee : ℚ) (nC : ℕ) :
    ∀ (L : List (ℕ × String × List OrderItem)) (db db2 : DBState),
      (∀ q ∈ L, q.2.2 ≠ [] ∧ q.2.1 ≠ "") →
      persistChunks products faults coId fee nC L db = (db2, none) →
      db2.customer_orders = db.customer_orders ∧
      db2.order_status_history = db.order_status_history ∧
      db2.store_orders.map StoreOrderRow.subtotal_amount =
        db.store_orders.map StoreOrderRow.subtotal_amount ++
          L.map (fun q => ((q.2.2.map (fun it => it.price * it.quantity)).sum)) ∧
      db2.store_orders.map StoreOrderRow.delivery_fee =
        db.store_orders.map StoreOrderRow.delivery_fee ++
          L.map (fun _ => if 1 < nC then fee / (nC : ℚ) else fee) := by
  intro L
  induction L with
  | nil =>
    intro db db2 hcond h
    simp only [persistChunks, Prod.mk.injEq] at h
    rw [← h.1]
    simp
  | cons q rest ih =>
    obtain ⟨i, sid, chunkItems⟩ := q
    intro db db2 hcond h
    have hq := hcond (i, sid, chunkItems) (List.mem_cons_self _ _)
    have hne1 : chunkItems.isEmpty = false := by
      cases chunkItems with
      | nil => exact absurd rfl hq.1
      | cons a l => rfl
    have hne2 : sid.isEmpty = false := by
      cases he : sid.isEmpty with
      | false => rfl
      | true => exact absurd ((String.isEmpty_iff sid).mp he) hq.2
    simp only [persistChunks, hne1, hne2, Bool.or_self, Bool.false_eq_true, if_false] at h
    by_cases hf1 : faults.storeOrderInsert i = true
    · rw [if_pos hf1] at h
      simp only [Prod.mk.injEq] at h
      exact absurd h.2 (by simp)
    · rw [if_neg hf1] at h
      set row : StoreOrderRow :=
        { id := db.store_orders.length, customer_order_id := coId, store_id := sid,
          subtotal_amount := (chunkItems.map (fun it => it.price * it.quantity)).sum,
          delivery_fee := if 1 < nC then fee / (nC : ℚ) else fee,
          status := "pending_at_store" } with hrow
      set db1 : DBState := { db with store_orders := db.store_orders ++ [row] } with hdb1
      have hstep : ∀ db3 : DBState,
          persistChunks products faults coId fee nC rest db1 = (db3, none) →
          db3.customer_orders = db.customer_orders ∧
          db3.order_status_history = db.order_status_history ∧
          db3.store_orders.map StoreOrderRow.subtotal_amount =
            db.store_orders.map StoreOrderRow.subtotal_amount ++
              ((i, sid, chunkItems) :: rest).map
                (fun q => ((q.2.2.map (fun it => it.price * it.quantity)).sum)) ∧
          db3.store_orders.map StoreOrderRow.delivery_fee =
            db.store_orders.map StoreOrderRow.delivery_fee ++
              ((i, sid, chunkItems) :: rest).map
                (fun _ => if 1 < nC then fee / (nC : ℚ) else fee) := by
        intro db3 hrec
        obtain ⟨hco, hhist, hsub, hfee⟩ := ih db1 db3
          (fun q hqm => hcond q (List.mem_cons_of_mem _ hqm)) hrec
        refine ⟨hco, hhist, ?_, ?_⟩
        · rw [hsub, hdb1]
          simp only [List.map_cons, List.map_append, List.map_cons, List.map_nil]
          rw [List.append_assoc]
          rfl
        · rw [hfee, hdb1]
          simp only [List.map_cons, List.map_append, List.map_cons, List.map_nil]
          rw [List.append_assoc]
          rfl
      by_cases hm : (truthyMids chunkItems).isEmpty = true
      · rw [if_pos hm] at h
        exact hstep db2 h
      · rw [if_neg hm] at h
        by_cases hf2 : faults.productsSelect i = true
        · rw [if_pos hf2] at h
          simp only [Prod.mk.injEq] at h
          exact absurd h.2 (by simp)
        · rw [if_neg hf2] at h
          cases hbp : buildPayload
              ((products.filter (fun r => r.store_id == sid &&
                (truthyMids chunkItems).contains r.master_product_id && r.is_active)).foldl
                (fun m p => amSet m p.master_product_id p.id) [])
              db.store_orders.length chunkItems with
          | error e =>
            simp only [hbp, Prod.mk.injEq] at h
            exact absurd h.2 (by simp)
          | ok payload =>
            simp only [hbp] at h
            by_cases hf3 : faults.orderItemsInsert i = true
            · rw [if_pos hf3] at h
              simp only [Prod.mk.injEq] at h
              exact absurd h.2 (by simp)
            · rw [if_neg hf3] at h
              obtain ⟨hco, hhist, hsub, hfee⟩ := ih
                { db1 with order_items := db1.order_items ++ payload } db2
                (fun q hqm => hcond q (List.mem_cons_of_mem _ hqm)) h
              refine ⟨hco, hhist, ?_, ?_⟩
              · rw [hsub]
                simp only [hdb1, List.map_cons, List.map_append, List.map_nil]
                rw [List.append_assoc]
                rfl
              · rw [hfee]
                simp only [hdb1, List.map_cons, List.map_append, List.map_nil]
                rw [List.append_assoc]
                rfl

theorem runPersist_success_shape (env : OrderEnv) (od : CreateOrderData) (plan : OrderPlan)
    (db db2 : DBState) (res : OrderResult)
    (h : runPersist env od plan db = (db2, Except.ok res))
    (hkeys : (plan.stm.map Prod.fst).Nodup)
    (hne : ∀ p ∈ plan.stm, p.2 ≠ [] ∧ p.1 ≠ "") :
    db2.customer_orders = db.customer_orders ++
        [customerRowOf od plan db.customer_orders.length] ∧
    db2.store_orders.map StoreOrderRow.subtotal_amount =
      db.store_orders.map StoreOrderRow.subtotal_amount ++
        plan.stm.map (fun p => ((p.2.map (fun i => od.items.getD i default)).map
          (fun it => it.price * it.quantity)).sum) ∧
    db2.store_orders.map StoreOrderRow.delivery_fee =
      db.store_orders.map StoreOrderRow.delivery_fee ++
        List.replicate plan.stm.length
          (if 1 < plan.stm.length then od.delivery_fee / (plan.stm.length : ℚ)
           else od.delivery_fee) := by
  unfold runPersist at h
  by_cases hcf : env.faults.customerOrderInsert = true
  · rw [if_pos hcf] at h
    simp only [Prod.mk.injEq] at h
    exact Except.noConfusion h.2
  · rw [if_neg hcf] at h
    rw [stm_chunks_eq od.items plan.stm hkeys] at h
    rw [List.zip_map'] at h
    simp only [List.length_map] at h
    cases hpc : persistChunks env.products env.faults db.customer_orders.length
        od.delivery_fee plan.stm.length
        ((plan.stm.map (fun p => (p.1, p.2.map (fun i => od.items.getD i default)))).enum)
        { db with customer_orders := db.customer_orders ++
          [customerRowOf od plan db.customer_orders.length] } with
    | mk db3 opt =>
      cases opt with
      | some e =>
        simp only [hpc, Prod.mk.injEq] at h
        exact Except.noConfusion h.2
      | none =>
        simp only [hpc, Prod.mk.injEq] at h
        have hdb2 : db2 = (if env.faults.historyInsert = true then db3
            else { db3 with order_status_history := db3.order_status_history ++
              [{ customer_order_id := db.customer_orders.length,
                 status := "pending_at_store", notes := "Order placed" }] }) := h.1.symm
        have hLcond : ∀ q ∈ (plan.stm.map
            (fun p => (p.1, p.2.map (fun i => od.items.getD i default)))).enum,
            q.2.2 ≠ [] ∧ q.2.1 ≠ "" := by
          intro q hq
          have hsnd : q.2 ∈ plan.stm.map
              (fun p => (p.1, p.2.map (fun i => od.items.getD i default))) := by
            have := List.mem_map_of_mem Prod.snd hq
            rw [List.enum_map_snd] at this
            exact this
          obtain ⟨p, hp, hpq⟩ := List.mem_map.mp hsnd
          obtain ⟨hp1, hp2⟩ := hne p hp
          constructor
          · rw [← hpq]
            simp only [ne_eq, List.map_eq_nil_iff]
            exact hp1
          · rw [← hpq]
            exact hp2
        obtain ⟨hco, hhist, hsub, hfee⟩ := persistChunks_success env.products env.faults
          db.customer_orders.length od.delivery_fee plan.stm.length _ _ db3 hLcond hpc
        have hdbco : db2.customer_orders = db3.customer_orders := by
          rw [hdb2]
          by_cases hh : env.faults.historyInsert = true
          · rw [if_pos hh]
          · rw [if_neg hh]
        have hdbso : db2.store_orders = db3.store_orders := by
          rw [hdb2]
          by_cases hh : env.faults.historyInsert = true
          · rw [if_pos hh]
          · rw [if_neg hh]
        have henum_map : ∀ (g : String × List OrderItem → ℚ),
            ((plan.stm.map (fun p => (p.1, p.2.map (fun i => od.items.getD i default)))).enum).map
              (fun q => g q.2) =
            (plan.stm.map (fun p => (p.1, p.2.map (fun i => od.items.getD i default)))).map g := by
          intro g
          rw [show (fun q : ℕ × String × List OrderItem => g q.2) = (g ∘ Prod.snd) from rfl,
            ← List.map_map, List.enum_map_snd]
        refine ⟨?_, ?_, ?_⟩
        · rw [hdbco, hco]
        · rw [hdbso, hsub]
          congr 1
          rw [henum_map (fun r => ((r.2.map (fun it => it.price * it.quantity)).sum))]
          rw [List.map_map]
          rfl
        · rw [hdbso, hfee]
          congr 1
          rw [henum_map (fun _ => if 1 < plan.stm.length
            then od.delivery_fee / (plan.stm.length : ℚ) else od.delivery_fee)]
          rw [List.map_const', List.length_map]

theorem createOrderPlan_ok (env : OrderEnv) (od : CreateOrderData) (plan : OrderPlan)
    (hp : createOrderPlan env od = Except.ok plan) :
    plan.storeIds = getNearbyStoreIdsModel env.nearbyResp ∧
    (masterIdsOf od.items).isEmpty = false ∧
    allocate plan.storeIds od.items
        (availabilityQuery env.products plan.storeIds (masterIdsOf od.items)) =
      Except.ok (plan.stm, []) := by
  unfold createOrderPlan at hp
  by_cases hu : strTruthy od.user_id = true
  · simp only [hu, Bool.not_true, Bool.false_eq_true, if_false] at hp
    cases hrc : resolveCoords od.shipping_address env.geocode with
    | none => simp only [hrc] at hp; exact Except.noConfusion hp
    | some pr =>
      obtain ⟨glat, glng⟩ := pr
      simp only [hrc] at hp
      cases hon : env.orderNumber with
      | error m => simp only [hon] at hp; exact Except.noConfusion hp
      | ok code =>
        simp only [hon] at hp
        by_cases hse : (getNearbyStoreIdsModel env.nearbyResp).isEmpty = true
        · rw [if_pos hse] at hp; exact Except.noConfusion hp
        · rw [if_neg hse] at hp
          by_cases hme : (masterIdsOf od.items).isEmpty = true
          · rw [if_pos hme] at hp; exact Except.noConfusion hp
          · rw [if_neg hme] at hp
            cases halloc : allocate (getNearbyStoreIdsModel env.nearbyResp) od.items
                (availabilityQuery env.products (getNearbyStoreIdsModel env.nearbyResp)
                  (masterIdsOf od.items)) with
            | error e => simp only [halloc] at hp; exact Except.noConfusion hp
            | ok pr2 =>
              obtain ⟨stmv, unas⟩ := pr2
              simp only [halloc] at hp
              by_cases hua : unas.isEmpty = true
              · simp only [hua, Bool.not_true, Bool.false_eq_true, if_false,
                  Except.ok.injEq] at hp
                have hstm : plan.stm = stmv := by rw [← hp]
                have hsto : plan.storeIds = getNearbyStoreIdsModel env.nearbyResp := by
                  rw [← hp]
                have huna : unas = [] := by simpa using hua
                refine ⟨hsto, eq_false_of_ne_true hme, ?_⟩
                rw [hsto, hstm]
                rw [huna] at halloc
                exact halloc
              · simp only [eq_false_of_ne_true hua, Bool.not_false, if_true] at hp
                exact Except.noConfusion hp
  · simp only [eq_false_of_ne_true hu, Bool.not_false, if_true] at hp
    exact Except.noConfusion hp

/-- Shape of the datastore after a successful `createOrder` when no
candidate store id is the empty string: exactly one new customer order
carrying the caller-supplied subtotal and delivery fee, and one new store
order per selected store with the chunk's computed subtotal and the equal
fee split, the chunks forming a permutation of the cart's indices. -/
theorem createOrder_success_shape (env : OrderEnv) (od : CreateOrderData) (db db2 : DBState)
    (res : OrderResult) (h : createOrderModel env od db = (db2, Except.ok res))
    (hsid : "" ∉ getNearbyStoreIdsModel env.nearbyResp) :
    ∃ (stm : List (String × List ℕ)) (co : CustomerOrderRow),
      co.subtotal_amount = od.subtotal ∧
      co.delivery_fee = od.delivery_fee ∧
      db2.customer_orders = db.customer_orders ++ [co] ∧
      0 < stm.length ∧
      ((stm.map Prod.snd).flatten).Perm (List.range od.items.length) ∧
      db2.store_orders.map StoreOrderRow.subtotal_amount =
        db.store_orders.map StoreOrderRow.subtotal_amount ++
          stm.map (fun p => ((p.2.map (fun i => od.items.getD i default)).map
            (fun it => it.price * it.quantity)).sum) ∧
      db2.store_orders.map StoreOrderRow.delivery_fee =
        db.store_orders.map StoreOrderRow.delivery_fee ++
          List.replicate stm.length
            (if 1 < stm.length then od.delivery_fee / (stm.length : ℚ)
             else od.delivery_fee) := by
  unfold createOrderModel at h
  cases hp : createOrderPlan env od with
  | error e =>
    simp only [hp, Prod.mk.injEq] at h
    exact Except.noConfusion h.2
  | ok plan =>
    simp only [hp] at h
    obtain ⟨hsto, hme, halloc⟩ := createOrderPlan_ok env od plan hp
    obtain ⟨assigned2, inv, huna⟩ := allocate_ok_cases plan.storeIds od.items _
      plan.stm [] halloc
    have hall : ∀ i < od.items.length, i ∈ assigned2 :=
      (unassigned_empty_iff assigned2 od.items.length).mp huna.symm
    have hne : ∀ p ∈ plan.stm, p.2 ≠ [] ∧ p.1 ≠ "" := by
      intro p hpm
      obtain ⟨hp1, hp2⟩ := inv.entries p hpm
      refine ⟨hp1, ?_⟩
      intro habs
      rw [hsto] at hp2
      exact hsid (habs ▸ hp2)
    obtain ⟨hco, hsub, hfee⟩ := runPersist_success_shape env od plan db db2 res h
      inv.keysNodup hne
    have hitems_ne : od.items ≠ [] := by
      intro habs
      rw [habs] at hme
      simp [masterIdsOf, dedupFirst, truthyMids] at hme
    have hn_pos : 0 < od.items.length := List.length_pos.mpr hitems_ne
    have hperm_range : assigned2.Perm (List.range od.items.length) := by
      rw [List.perm_ext_iff_of_nodup inv.nodup (List.nodup_range _)]
      intro a
      constructor
      · intro ha
        exact List.mem_range.mpr (inv.bound a ha)
      · intro ha
        exact hall a (List.mem_range.mp ha)
    have hflat : ((plan.stm.map Prod.snd).flatten).Perm (List.range od.items.length) :=
      inv.perm.trans hperm_range
    have hstm_pos : 0 < plan.stm.length := by
      by_contra hz
      have hstm_nil : plan.stm = [] := by
        cases hsl : plan.stm with
        | nil => rfl
        | cons a l => rw [hsl] at hz; simp at hz
      rw [hstm_nil] at hflat
      simp only [List.map_nil, List.flatten_nil] at hflat
      have := hflat.length_eq
      rw [List.length_range] at this
      simp at this
      omega
    exact ⟨plan.stm, customerRowOf od plan db.customer_orders.length, rfl, rfl, hco,
      hstm_pos, hflat, hsub, hfee⟩

theorem chunkList_flatten_aux {α : Type} (n : ℕ) (hn : 0 < n) :
    ∀ (k : ℕ) (l : List α), l.length ≤ k → (chunkList l n).flatten = l := by
  intro k
  induction k with
  | zero =>
    intro l hl
    have hnil : l = [] := List.eq_nil_of_length_eq_zero (by omega)
    subst hnil
    rw [chunkList]
    simp
  | succ k ih =>
    intro l hl
    rw [chunkList]
    by_cases hc : l.isEmpty = true ∨ n = 0
    · have hle : l = [] := by
        rcases hc with hx | hx
        · simpa using hx
        · omega
      rw [dif_pos hc, hle]
      rfl
    · rw [dif_neg hc]
      rw [List.flatten_cons]
      have hlne : l ≠ [] := by
        intro habs
        exact hc (Or.inl (by simp [habs]))
      have hlpos : 0 < l.length := List.length_pos.mpr hlne
      rw [ih (l.drop n) (by rw [List.length_drop]; omega)]
      exact List.take_append_drop n l

theorem chunkList_bounded_aux {α : Type} (n : ℕ) :
    ∀ (k : ℕ) (l : List α), l.length ≤ k → ∀ c ∈ chunkList l n, c.length ≤ n := by
  intro k
  induction k with
  | zero =>
    intro l hl c hc
    have hnil : l = [] := List.eq_nil_of_length_eq_zero (by omega)
    subst hnil
    rw [chunkList] at hc
    simp at hc
  | succ k ih =>
    intro l hl c hc
    rw [chunkList] at hc
    by_cases hcc : l.isEmpty = true ∨ n = 0
    · rw [dif_pos hcc] at hc
      cases hc
    · rw [dif_neg hcc] at hc
      have hnz : n ≠ 0 := fun habs => hcc (Or.inr habs)
      have hlne : l ≠ [] := by
        intro habs
        exact hcc (Or.inl (by simp [habs]))
      have hlpos : 0 < l.length := List.length_pos.mpr hlne
      rcases List.mem_cons.mp hc with rfl | hrest
      · rw [List.length_take]
        omega
      · exact ih (l.drop n) (by rw [List.length_drop]; omega) c hrest

/-! ### Claim theorems -/

/-- Claim C1 (code bug exhibited): on a placement whose second
`store_orders` insert fails, `createOrder` throws and leaves the
`customer_orders` row, the first sub-order's `store_orders` row and its
`order_items` row in the datastore — it performs no compensating deletes
anywhere, so the failed placement keeps a CustomerOrder with partial
sub-orders instead of rolling the rows back. -/
theorem createOrder_no_rollback_on_failure :
    (createOrderModel envRollback odAB dbEmpty).2 =
      Except.error (OrderErr.persistence "Failed to create store order") ∧
    (createOrderModel envRollback odAB dbEmpty).1.customer_orders.length = 1 ∧
    (createOrderModel envRollback odAB dbEmpty).1.store_orders.length = 1 ∧
    (createOrderModel envRollback odAB dbEmpty).1.order_items.length = 1 ∧
    (createOrderModel envRollback odAB dbEmpty).1.order_status_history.length = 0 := by
  refine ⟨rfl, rfl, rfl, rfl, rfl⟩

/-- Claim C2 (code bug exhibited): with a cart item whose master product id
no candidate store carries, `createOrder` crashes with the modelled
TypeError (`byMaster.get(mid)` is `undefined` and `.some` is read off it)
before ever reaching the items-unavailable check, so the error does not
name the item; no order row is persisted (state unchanged). -/
theorem createOrder_typeerror_on_uncarried_item :
    createOrderModel envUncarried odA dbEmpty =
      (dbEmpty, Except.error OrderErr.allocTypeError) := by
  rfl

/-- Claim C5: with candidate order [S1, S2], S1 carrying A and B, S2
carrying B and C, and the cart [A, B, C] (indices 0, 1, 2), the engine
assigns indices 0 and 1 to S1 and index 2 to S2 — exactly two store
assignments and zero unassigned items. -/
theorem allocate_example_S1_S2 :
    allocate ["S1", "S2"] [itemA, itemB, itemC] rowsS1S2 =
      Except.ok ([("S1", [0, 1]), ("S2", [2])], []) := by
  rfl

/-- Claim C3 counterexample: the greedy loop's break condition
`if (!bestStore || bestCount === 0)` also fires when the selected store id
is the falsy empty string.  With the single candidate store `""` carrying
the only cart item — so the claim's hypothesis "every item is carried by at
least one candidate store" holds — the loop breaks at once and the item
stays unassigned. -/
theorem allocate_falsy_store_break :
    (∀ it ∈ [itemA], strTruthy (itemMid it) = true ∧
      ∃ r ∈ [mkRow "p0" "" "A"], r.master_product_id = (itemMid it).getD "" ∧
        r.store_id ∈ [""]) ∧
    allocate [""] [itemA] [mkRow "p0" "" "A"] = Except.ok ([], [0]) :=
  ⟨by decide, rfl⟩

/-- Claim C3 (amended): for every cart and availability in which the
candidate store ids are non-empty strings and each cart item has a truthy
master product id listed by some availability row for a candidate store,
the greedy allocation loop terminates with every item assigned — the
unassigned list is empty.  (The non-empty-id condition is forced by the
loop's falsy-store break; datastore ids are UUIDs, never the empty
string.) -/
theorem allocate_all_assigned (storeIds : List String) (items : List OrderItem)
    (rows : List ProductsRow)
    (h : ∀ it ∈ items, strTruthy (itemMid it) = true ∧
      ∃ r ∈ rows, r.master_product_id = (itemMid it).getD "" ∧ r.store_id ∈ storeIds)
    (hnes : "" ∉ storeIds) :
    ∃ stm, allocate storeIds items rows = Except.ok (stm, []) := by
  obtain ⟨stm2, assigned2, hl, hall⟩ := allocLoop_total rows items storeIds h hnes
    (items.length + 1) [] [] (allocInv_init rows items storeIds) (by omega)
  refine ⟨stm2, ?_⟩
  unfold allocate
  have hfil : (List.range items.length).filter (fun i => !assigned2.contains i) = [] :=
    (unassigned_empty_iff assigned2 items.length).mpr hall
  simp only [hl, hfil]

/-- Witness for C3 at the concrete two-store cart of the C5 scenario. -/
theorem allocate_all_assigned_witness :
    ∃ stm, allocate ["S1", "S2"] [itemA, itemB, itemC] rowsS1S2 = Except.ok (stm, []) :=
  allocate_all_assigned ["S1", "S2"] [itemA, itemB, itemC] rowsS1S2 (by decide) (by decide)

/-- Claim C4: a completed allocation assigns each cart index at most once —
the concatenation of all stores' assignment lists has no duplicate — and
assigns an index only to a store for which some availability row lists that
item's master product. -/
theorem allocate_sound (storeIds : List String) (items : List OrderItem)
    (rows : List ProductsRow) (stm : List (String × List ℕ)) (unassigned : List ℕ)
    (h : allocate storeIds items rows = Except.ok (stm, unassigned)) :
    ((stm.map Prod.snd).flatten).Nodup ∧
    ∀ p ∈ stm, ∀ i ∈ p.2, i < items.length ∧
      ∃ r ∈ rows, r.master_product_id = (itemMid (items.getD i default)).getD "" ∧
        r.store_id = p.1 := by
  obtain ⟨assigned2, inv, _⟩ := allocate_ok_cases storeIds items rows stm unassigned h
  refine ⟨(inv.perm.nodup_iff).mpr inv.nodup, ?_⟩
  intro p hp i hi
  obtain ⟨hlt, hcar⟩ := inv.carried p hp i hi
  exact ⟨hlt, itemCarried_exists_row rows _ p.1 hcar⟩

/-- Witness for C4 at the concrete allocation of the C5 scenario. -/
theorem allocate_sound_witness :
    (([("S1", [0, 1]), ("S2", [2])].map (Prod.snd (α := String))).flatten).Nodup ∧
    ∀ p ∈ [("S1", [0, 1]), ("S2", [2])], ∀ i ∈ p.2, i < [itemA, itemB, itemC].length ∧
      ∃ r ∈ rowsS1S2,
        r.master_product_id = (itemMid ([itemA, itemB, itemC].getD i default)).getD "" ∧
        r.store_id = p.1 :=
  allocate_sound ["S1", "S2"] [itemA, itemB, itemC] rowsS1S2
    [("S1", [0, 1]), ("S2", [2])] [] (by rfl)

/-- Claim C6 counterexample: a successful `createOrder` run in which the
caller-supplied subtotal (999) — which `createOrder` copies unvalidated
onto the `customer_orders` row — differs from the sum of the sub-orders'
computed subtotals (10). -/
theorem createOrder_subtotal_mismatch :
    (createOrderModel envSingle odMismatch dbEmpty).2 = Except.ok resMismatch ∧
    ((createOrderModel envSingle odMismatch dbEmpty).1.customer_orders.map
      CustomerOrderRow.subtotal_amount) = [999] ∧
    ((createOrderModel envSingle odMismatch dbEmpty).1.store_orders.map
      StoreOrderRow.subtotal_amount).sum = 10 ∧
    (10 : ℚ) ≠ 999 := by
  refine ⟨rfl, rfl, ?_, by norm_num⟩
  have hmap : (createOrderModel envSingle odMismatch dbEmpty).1.store_orders.map
      StoreOrderRow.subtotal_amount = [([itemA].map (fun it => it.price * it.quantity)).sum] := by
    rfl
  rw [hmap]
  simp [itemA, mkItem]

/-- Claim C6 (amended): for every successful `createOrder` run whose
candidate store ids are non-empty strings, the sum of the sub-orders'
subtotals equals the cart's price×quantity sum, while the CustomerOrder
row records the caller-supplied subtotal — so the two coincide exactly
when the caller supplied the computed cart sum. -/
theorem createOrder_suborder_subtotal_sum (env : OrderEnv) (od : CreateOrderData)
    (db db2 : DBState) (res : OrderResult)
    (h : createOrderModel env od db = (db2, Except.ok res))
    (hsid : "" ∉ getNearbyStoreIdsModel env.nearbyResp) :
    (db2.store_orders.map StoreOrderRow.subtotal_amount).sum =
      (db.store_orders.map StoreOrderRow.subtotal_amount).sum +
        (od.items.map (fun it => it.price * it.quantity)).sum ∧
    ∃ co, db2.customer_orders = db.customer_orders ++ [co] ∧
      co.subtotal_amount = od.subtotal := by
  obtain ⟨stm, co, hco_sub, _, hco, _, hperm, hsub, _⟩ :=
    createOrder_success_shape env od db db2 res h hsid
  refine ⟨?_, co, hco, hco_sub⟩
  rw [hsub, List.sum_append]
  congr 1
  have hmm : stm.map (fun p => ((p.2.map (fun i => od.items.getD i default)).map
      (fun it => it.price * it.quantity)).sum) =
      ((stm.map Prod.snd).map (fun l => l.map (fun i =>
        (od.items.getD i default).price * (od.items.getD i default).quantity))).map
        List.sum := by
    rw [List.map_map, List.map_map]
    apply List.map_congr_left
    intro p _
    simp only [Function.comp_apply, List.map_map]
    rfl
  rw [hmm, ← List.sum_flatten, ← List.map_flatten]
  have hpg := hperm.map (fun i =>
    (od.items.getD i default).price * (od.items.getD i default).quantity)
  rw [hpg.sum_eq]
  have hrg := range_map_getD od.items default (fun it => it.price * it.quantity)
  rw [hrg]

/-- Witness for the amended C6 at a fault-free single-store order whose
supplied subtotal matches the cart sum. -/
theorem createOrder_suborder_subtotal_sum_witness :
    (((createOrderModel envSingle odMatch dbEmpty).1.store_orders.map
        StoreOrderRow.subtotal_amount).sum =
      ((dbEmpty.store_orders.map StoreOrderRow.subtotal_amount).sum +
        (odMatch.items.map (fun it => it.price * it.quantity)).sum)) ∧
    ∃ co, (createOrderModel envSingle odMatch dbEmpty).1.customer_orders =
        dbEmpty.customer_orders ++ [co] ∧ co.subtotal_amount = odMatch.subtotal :=
  createOrder_suborder_subtotal_sum envSingle odMatch dbEmpty
    (createOrderModel envSingle odMatch dbEmpty).1 resW6 (by rfl) (by decide)

/-- Claim C7: every successful `createOrder` (with non-empty candidate
store ids) creates N ≥ 1 sub-orders; each carries delivery fee total/N when
N > 1 and the full fee when N = 1, and the N fees sum exactly to the
original total delivery fee (exact over ℚ; the float computation agrees
within rounding). -/
theorem createOrder_fee_apportionment (env : OrderEnv) (od : CreateOrderData)
    (db db2 : DBState) (res : OrderResult)
    (h : createOrderModel env od db = (db2, Except.ok res))
    (hsid : "" ∉ getNearbyStoreIdsModel env.nearbyResp) :
    ∃ N : ℕ, 0 < N ∧
      db2.store_orders.map StoreOrderRow.delivery_fee =
        db.store_orders.map StoreOrderRow.delivery_fee ++
          List.replicate N (if 1 < N then od.delivery_fee / (N : ℚ) else od.delivery_fee) ∧
      (List.replicate N (if 1 < N then od.delivery_fee / (N : ℚ)
        else od.delivery_fee)).sum = od.delivery_fee := by
  obtain ⟨stm, co, _, _, _, hpos, _, _, hfee⟩ :=
    createOrder_success_shape env od db db2 res h hsid
  refine ⟨stm.length, hpos, hfee, ?_⟩
  rw [List.sum_replicate]
  by_cases h1 : 1 < stm.length
  · rw [if_pos h1, nsmul_eq_mul, mul_comm]
    rw [div_mul_cancel₀]
    intro habs
    have hz : stm.length = 0 := by exact_mod_cast habs
    omega
  · rw [if_neg h1]
    have hone : stm.length = 1 := by omega
    rw [hone, one_smul]

/-- Witness for C7 at a fault-free two-store order with delivery fee 7. -/
theorem createOrder_fee_apportionment_witness :
    ∃ N : ℕ, 0 < N ∧
      (createOrderModel envTwoStores odABfee dbEmpty).1.store_orders.map
          StoreOrderRow.delivery_fee =
        dbEmpty.store_orders.map StoreOrderRow.delivery_fee ++
          List.replicate N (if 1 < N then odABfee.delivery_fee / (N : ℚ)
            else odABfee.delivery_fee) ∧
      (List.replicate N (if 1 < N then odABfee.delivery_fee / (N : ℚ)
        else odABfee.delivery_fee)).sum = odABfee.delivery_fee :=
  createOrder_fee_apportionment envTwoStores odABfee dbEmpty
    (createOrderModel envTwoStores odABfee dbEmpty).1 resW7 (by rfl) (by decide)

/-- Claim C8: `getNearbyStoreIds` is a total function that returns the
empty list whenever the RPC throws, reports an error, or yields a null or
empty id list; and a `createOrder` call whose candidate-store lookup comes
back empty fails with the no-stores error with the datastore unchanged —
before any order row is written. -/
theorem getNearby_empty_and_noStores :
    getNearbyStoreIdsModel RpcOutcome.thrown = [] ∧
    (∀ r : RpcResponse, r.error.isSome = true ∨ r.data = none ∨ r.data = some [] →
      getNearbyStoreIdsModel (RpcOutcome.resp r) = []) ∧
    (∀ (env : OrderEnv) (od : CreateOrderData) (db : DBState),
      strTruthy od.user_id = true →
      resolveCoords od.shipping_address env.geocode ≠ none →
      (∃ code, env.orderNumber = Except.ok code) →
      getNearbyStoreIdsModel env.nearbyResp = [] →
      createOrderModel env od db = (db, Except.error OrderErr.noStores)) := by
  refine ⟨rfl, ?_, ?_⟩
  · intro r hr
    show (if r.error.isSome = true then [] else
      match r.data with
      | none => []
      | some storeIds => if storeIds.length = 0 then ([] : List String) else storeIds) = []
    rcases hr with he | hd | hd
    · rw [if_pos he]
    · rw [hd]
      by_cases he : r.error.isSome = true
      · rw [if_pos he]
      · rw [if_neg he]
    · rw [hd]
      by_cases he : r.error.isSome = true
      · rw [if_pos he]
      · rw [if_neg he]
        rfl
  · intro env od db hu hrc ⟨code, hon⟩ hsids
    unfold createOrderModel createOrderPlan
    cases hco : resolveCoords od.shipping_address env.geocode with
    | none => exact absurd hco hrc
    | some pr =>
      obtain ⟨glat, glng⟩ := pr
      simp only [hu, Bool.not_true, Bool.false_eq_true, if_false, hco, hon, hsids,
        List.isEmpty_nil, if_true]

/-- Witness for C8: an empty RPC answer yields no candidates, and the
corresponding `createOrder` call fails with the no-stores error leaving the
empty datastore untouched. -/
theorem getNearby_empty_and_noStores_witness :
    getNearbyStoreIdsModel (RpcOutcome.resp { data := some [], error := none }) = [] ∧
    createOrderModel envNoStores odA dbEmpty = (dbEmpty, Except.error OrderErr.noStores) :=
  ⟨getNearby_empty_and_noStores.2.1 { data := some [], error := none }
      (Or.inr (Or.inr rfl)),
   getNearby_empty_and_noStores.2.2 envNoStores odA dbEmpty (by decide)
      (by decide) ⟨"NN202601010001", rfl⟩ rfl⟩

/-- Claim C9 (code bug exhibited): the repository's `chunk` helper does
page correctly — concatenating its chunks restores the original list and
every chunk stays within the size bound — and the availability query is
empty whenever either filter set is empty; but `createOrder`'s availability
resolution issues a single unpaged query whose filter lists are the full id
sets, so 150 candidate stores already exceed `IN_FILTER_CHUNK_SIZE` (100),
the repo's own documented transport bound. -/
theorem chunking_correct_but_availability_unpaged :
    (∀ (α : Type) (l : List α) (n : ℕ), 0 < n →
      (chunkList l n).flatten = l ∧ ∀ c ∈ chunkList l n, c.length ≤ n) ∧
    (∀ (products : List ProductsRow) (mids : List String),
      availabilityQuery products [] mids = []) ∧
    (∀ (products : List ProductsRow) (sids : List String),
      availabilityQuery products sids [] = []) ∧
    availabilityQueryBatches ((List.range 150).map toString) ["m1"] =
      [(((List.range 150).map toString), ["m1"])] ∧
    (∀ q ∈ availabilityQueryBatches ((List.range 150).map toString) ["m1"],
      IN_FILTER_CHUNK_SIZE < q.1.length) := by
  refine ⟨?_, ?_, ?_, rfl, ?_⟩
  · intro α l n hn
    exact ⟨chunkList_flatten_aux n hn l.length l le_rfl,
      chunkList_bounded_aux n l.length l le_rfl⟩
  · intro products mids
    unfold availabilityQuery
    rw [List.filter_eq_nil_iff]
    intro r _
    simp
  · intro products sids
    unfold availabilityQuery
    rw [List.filter_eq_nil_iff]
    intro r _
    simp
  · intro q hq
    have hq1 : q = (((List.range 150).map toString), ["m1"]) := by
      simpa [availabilityQueryBatches] using hq
    rw [hq1]
    show IN_FILTER_CHUNK_SIZE < ((List.range 150).map toString).length
    rw [List.length_map, List.length_range]
    norm_num [IN_FILTER_CHUNK_SIZE]

/-- Witness for C9: chunking a 250-element list into pieces of 100. -/
theorem chunking_correct_but_availability_unpaged_witness :
    ((chunkList (List.range 250) 100).flatten = List.range 250 ∧
      ∀ c ∈ chunkList (List.range 250) 100, c.length ≤ 100) ∧
    (∀ q ∈ availabilityQueryBatches ((List.range 150).map toString) ["m1"],
      IN_FILTER_CHUNK_SIZE < q.1.length) :=
  ⟨chunking_correct_but_availability_unpaged.1 ℕ (List.range 250) 100 (by norm_num),
   chunking_correct_but_availability_unpaged.2.2.2.2⟩

/-- Claim C10: when the `app_users` insert succeeds and the `stores` insert
fails, `signupComplete` deletes the `app_users` row it just created before
returning the error response: with a fresh datastore-generated id, the
`app_users` and `stores` tables are exactly as before the call. -/
theorem signup_rollback (env : SignupEnv) (req : SignupReq) (st : SignupState)
    (hp : strTruthy req.phone = true) (hw : strTruthy req.ownerName = true)
    (hn : strTruthy req.storeName = true)
    (hu : env.userInsertFails = false) (hs : env.storeInsertFails = true)
    (hfresh : ∀ u ∈ st.app_users, u.id ≠ st.nextId) :
    (signupCompleteModel env req st).1.app_users = st.app_users ∧
    (signupCompleteModel env req st).1.stores = st.stores ∧
    (signupCompleteModel env req st).2 = SignupResp.serverError "Failed to create store" := by
  unfold signupCompleteModel
  simp only [hp, hw, hn, Bool.not_true, Bool.or_self, Bool.or_false, Bool.false_or,
    Bool.false_eq_true, if_false, hu, hs, if_true]
  refine ⟨?_, by simp, by simp⟩
  rw [List.filter_append]
  have h1 : st.app_users.filter (fun u => u.id ≠ st.nextId) = st.app_users := by
    rw [List.filter_eq_self]
    intro u hu2
    simpa using hfresh u hu2
  have h2 : List.filter (fun u => u.id ≠ st.nextId)
      [{ id := st.nextId, name := (req.ownerName.getD "").trim, phone := req.phone.getD "",
         email := (if strTruthy req.email then some ((req.email.getD "").trim) else none),
         role := "store_owner", is_activated := true : AppUserRow }] = [] := by
    rw [List.filter_eq_nil_iff]
    intro u hu2
    simp only [List.mem_singleton] at hu2
    subst hu2
    simp
  rw [h1, h2, List.append_nil]

/-- Witness for C10 at a one-user datastore. -/
theorem signup_rollback_witness :
    (signupCompleteModel envSignupStoreFail reqSignup stSignup).1.app_users =
      stSignup.app_users ∧
    (signupCompleteModel envSignupStoreFail reqSignup stSignup).1.stores =
      stSignup.stores ∧
    (signupCompleteModel envSignupStoreFail reqSignup stSignup).2 =
      SignupResp.serverError "Failed to create store" :=
  signup_rollback envSignupStoreFail reqSignup stSignup (by decide) (by decide) (by decide)
    rfl rfl (by decide)
